import Mathlib

/-!
# KOrgTodoPlugin: delta reconciliation and the sync-ID ledger

A shallow embedding of `src/KOrgTodoPlugin.cc` (the KOrganizer todo plugin of zync).

Conventions of the embedding:

* The calendar (`pCal->rawTodos()`) is the list of its todos in enumeration order.
* `unsigned long int` is the 32-bit type the 4-byte reads and writes of the ledger code
  presuppose; values of that type are natural numbers, bytes are `Fin 256`, and the
  4-byte object representation is little-endian.
* `time_t` values (the results of `ConvQDateTime`) are integers.
* A `std::fstream` opened for reading is the list of bytes not yet extracted together
  with its `good()` flag; a file that cannot be opened is `none`.
* Storage that the code reads before writing it (the automatic variable `numSyncIDs`,
  the elements of `new unsigned long int[numSyncIDs]`) has an arbitrary initial content,
  passed in as `Uninit`.
* `operator new` reports exhaustion by throwing, never by returning `NULL`; the
  `return 2` branch of `GetAllTodoSyncItems` and the `return 1` branch of `AddTodoItems`
  are therefore not reachable and allocation is taken to succeed.
* The calls into libkcal (`todo`, `addTodo`, `deleteTodo`, the setters of `KCal::Todo`)
  are taken by their contract: a lookup by UID, an append that the store may refuse, the
  removal of one todo object, and assignments to the members the setter names.
* Console output (`std::cout`) is not part of the state.
-/

namespace KOrgTodoPlugin

/-! ## Data model -/

/-- The part of a `KCal::Todo` the plugin reads or writes. `pilotId` holds the value of
`(unsigned long int)pKcalTodo->pilotId()`. -/
structure Todo where
  uid : String
  created : Int
  lastModified : Int
  pilotId : Nat
  categories : List String
  hasStartDate : Bool
  dtStart : Int
  hasDueDate : Bool
  dtDue : Int
  hasCompletedDate : Bool
  completed : Int
  isCompleted : Bool
  todoPriority : Int
  summary : String
  description : String
  deriving DecidableEq, Repr

/-- The common item record of the plugin interface (`TodoItemType`). -/
structure TodoItemType where
  itemAttribute : Nat
  createdTime : Int
  modifiedTime : Int
  syncID : Nat
  appID : String
  category : String
  startDate : Int
  dueDate : Int
  completedDate : Int
  progressStatus : Nat
  itemPriority : Nat
  description : String
  notes : String
  deriving DecidableEq, Repr

/-- The todos of the calendar, as `pCal->rawTodos()` enumerates them. -/
abbrev Calendar := List Todo

/-- The list of sync identifiers (`SyncIDListType`). -/
abbrev SyncIDListType := List Nat

/-- One byte of a file. -/
abbrev Byte := Fin 256

/-- Embedding of `ConvQDateTime`: the date-time as seconds since the Epoch. Date-times are kept in
that form already, so the conversion is the identity. -/
def ConvQDateTime (dateTime : Int) : Int := dateTime

/-- Embedding of `KOrgTodoPlugin::ConvKCalTodo`. The category is the first entry of the todo's
category list (the empty string when the list is empty). -/
def ConvKCalTodo (pKcalTodo : Todo) : TodoItemType :=
  { itemAttribute := 0
    createdTime := ConvQDateTime pKcalTodo.created
    modifiedTime := ConvQDateTime pKcalTodo.lastModified
    syncID := pKcalTodo.pilotId
    appID := pKcalTodo.uid
    category := pKcalTodo.categories.headD ""
    startDate := if pKcalTodo.hasStartDate then ConvQDateTime pKcalTodo.dtStart else 0
    dueDate := if pKcalTodo.hasDueDate then ConvQDateTime pKcalTodo.dtDue else 0
    completedDate :=
      if pKcalTodo.hasCompletedDate then ConvQDateTime pKcalTodo.completed else 0
    progressStatus := if pKcalTodo.isCompleted then 0 else 1
    itemPriority := (pKcalTodo.todoPriority % 256).toNat
    description := pKcalTodo.summary
    notes := pKcalTodo.description }

/-! ## Four-byte fields and the input stream -/

/-- The four bytes of the object representation of a 32-bit value, lowest byte first:
what `write((const char *)&v, 4)` puts into the file. -/
def le32 (v : Nat) : List Byte :=
  [⟨v % 256, Nat.mod_lt _ (by decide)⟩,
   ⟨v / 256 % 256, Nat.mod_lt _ (by decide)⟩,
   ⟨v / 65536 % 256, Nat.mod_lt _ (by decide)⟩,
   ⟨v / 16777216 % 256, Nat.mod_lt _ (by decide)⟩]

/-- The value whose object representation starts with the given bytes (lowest first). -/
def decode32 : List Byte → Nat
  | [] => 0
  | b :: bs => b.val + 256 * decode32 bs

/-- An input file stream: the bytes not yet extracted and the `good()` flag. -/
structure IStream where
  rest : List Byte
  good : Bool
  deriving DecidableEq, Repr

/-- Embedding of `fin.read((char *)&obj, 4)` on a 4-byte object currently holding `obj`: the new
content of the object and the stream afterwards. On a stream that is not good nothing is
extracted; when fewer than four bytes are left they are stored over the first bytes of
the object, the rest of it keeps its content, and the stream stops being good. -/
def IStream.read4 (s : IStream) (obj : Nat) : Nat × IStream :=
  if s.good = false then (obj, s)
  else if 4 ≤ s.rest.length then
    (decode32 (s.rest.take 4), { rest := s.rest.drop 4, good := true })
  else
    (decode32 (s.rest ++ (le32 obj).drop s.rest.length), { rest := [], good := false })

/-- Initial content of the storage `GetAllTodoSyncItems` reads without having written
it: the automatic variable `numSyncIDs` and the elements of the array `pSyncIDs`. -/
structure Uninit where
  numSyncIDs : Nat
  pSyncIDs : Nat → Nat

/-! ## GetAllTodoSyncItems -/

/-- One iteration of the loop that builds the new and the modified list (lines 680-708):
`acc` is `(newItemList, modItemList)`. -/
def classifyStep (lastTimeSynced : Int)
    (acc : List TodoItemType × List TodoItemType) (pKcalTodo : Todo) :
    List TodoItemType × List TodoItemType :=
  if ConvQDateTime pKcalTodo.created > lastTimeSynced ∧ pKcalTodo.pilotId = 0 then
    (ConvKCalTodo pKcalTodo :: acc.1, acc.2)
  else if ConvQDateTime pKcalTodo.lastModified > lastTimeSynced ∧ pKcalTodo.pilotId ≠ 0 then
    (acc.1, ConvKCalTodo pKcalTodo :: acc.2)
  else acc

/-- The loop over the calendar that builds the new and the modified list. -/
def classifyLoop (lastTimeSynced : Int) (kcalTodoList : Calendar)
    (newItemList modItemList : List TodoItemType) :
    List TodoItemType × List TodoItemType :=
  kcalTodoList.foldl (classifyStep lastTimeSynced) (newItemList, modItemList)

/-- The loop `for (syncCount = 0; syncCount < numSyncIDs; syncCount++)` that fills
`pSyncIDs` (lines 760-770): `readSyncIDs n i fin heap` performs the `n` iterations
starting at `syncCount = i` and returns the elements `i .. i+n-1` of the array; element
`k` holds the 32-bit value `heap k % 2^32` before it is read into. The state of the
stream is not tested inside the loop. -/
def readSyncIDs : Nat → Nat → IStream → (Nat → Nat) → List Nat
  | 0, _, _, _ => []
  | n + 1, syncCount, fin, heap =>
    let r := fin.read4 (heap syncCount % 4294967296)
    r.1 :: readSyncIDs n (syncCount + 1) r.2 heap

/-- The inner loop of the deletion pass (lines 781-794): `foundSyncID` after comparing
the identifier with the `pilotId` of every todo. -/
def foundSyncID (kcalTodoList : Calendar) (syncID : Nat) : Bool :=
  kcalTodoList.foldl (fun found pKcalTodo => if pKcalTodo.pilotId = syncID then true else found)
    false

/-- One iteration of the deletion pass (lines 778-802). -/
def delStep (kcalTodoList : Calendar) (delItemIdList : SyncIDListType) (syncID : Nat) :
    SyncIDListType :=
  if foundSyncID kcalTodoList syncID = false then syncID :: delItemIdList else delItemIdList

/-- What the part of `GetAllTodoSyncItems` that reads the log file leaves behind:
`numSyncIDs`, the array `pSyncIDs` and `numSyncIDsRead`. -/
structure LogRead where
  numSyncIDs : Nat
  pSyncIDs : List Nat
  numSyncIDsRead : Nat
  deriving DecidableEq, Repr

/-- Lines 737-772 of `GetAllTodoSyncItems`, for a log file that was opened: read the
count, take it as 0 when the stream is not good afterwards, fill the array, and set
`numSyncIDsRead` to the value of `syncCount` at the end of the loop (one per
iteration). -/
def readSyncIDLog (file : List Byte) (u : Uninit) : LogRead :=
  let r := IStream.read4 { rest := file, good := true } u.numSyncIDs
  let numSyncIDs := if r.2.good = false then 0 else r.1
  let pSyncIDs := readSyncIDs numSyncIDs 0 r.2 u.pSyncIDs
  { numSyncIDs := numSyncIDs, pSyncIDs := pSyncIDs, numSyncIDsRead := pSyncIDs.length }

/-- Result of `GetAllTodoSyncItems`: the return value, the three lists passed by
reference, and the member `obtainedSyncLists`. -/
structure SyncItems where
  retval : Nat
  newItemList : List TodoItemType
  modItemList : List TodoItemType
  delItemIdList : SyncIDListType
  obtainedSyncLists : Bool
  deriving DecidableEq, Repr

/-- Embedding of `KOrgTodoPlugin::GetAllTodoSyncItems`. `log` is the content of
`~/.KOrgTodoPlugin.log`, `none` when it cannot be opened for reading. -/
def GetAllTodoSyncItems (kcalTodoList : Calendar) (log : Option (List Byte)) (u : Uninit)
    (lastTimeSynced : Int) (newItemList modItemList : List TodoItemType)
    (delItemIdList : SyncIDListType) : SyncItems :=
  let lists := classifyLoop lastTimeSynced kcalTodoList newItemList modItemList
  match log with
  | none =>
    { retval := if (0 : Nat) ≠ u.numSyncIDs then 3 else 0
      newItemList := lists.1
      modItemList := lists.2
      delItemIdList := delItemIdList
      obtainedSyncLists := true }
  | some file =>
    let rd := readSyncIDLog file u
    { retval := if rd.numSyncIDsRead ≠ rd.numSyncIDs then 3 else 0
      newItemList := lists.1
      modItemList := lists.2
      delItemIdList := (rd.pSyncIDs.take rd.numSyncIDsRead).foldl (delStep kcalTodoList)
        delItemIdList
      obtainedSyncLists := true }

/-! ## The plugin object and its public delta queries -/

/-- The data members of `KOrgTodoPlugin` that the delta queries use. -/
structure Plugin where
  obtainedSyncLists : Bool
  newTodoItemList : List TodoItemType
  modTodoItemList : List TodoItemType
  delTodoItemIdList : SyncIDListType
  deriving DecidableEq, Repr

/-- The members as the constructor `KOrgTodoPlugin::KOrgTodoPlugin` leaves them. -/
def Plugin.fresh : Plugin :=
  { obtainedSyncLists := false, newTodoItemList := [], modTodoItemList := [],
    delTodoItemIdList := [] }

/-- The call `GetAllTodoSyncItems(lastTimeSynced, newTodoItemList, modTodoItemList,
delTodoItemIdList)` on the members of the plugin. -/
def Plugin.sync (p : Plugin) (cal : Calendar) (log : Option (List Byte)) (u : Uninit)
    (lastTimeSynced : Int) : Plugin :=
  let r := GetAllTodoSyncItems cal log u lastTimeSynced p.newTodoItemList p.modTodoItemList
    p.delTodoItemIdList
  { obtainedSyncLists := r.obtainedSyncLists, newTodoItemList := r.newItemList,
    modTodoItemList := r.modItemList, delTodoItemIdList := r.delItemIdList }

/-- Embedding of `KOrgTodoPlugin::GetNewTodoItems`: the returned list and the plugin afterwards. -/
def GetNewTodoItems (p : Plugin) (cal : Calendar) (log : Option (List Byte)) (u : Uninit)
    (lastTimeSynced : Int) : List TodoItemType × Plugin :=
  if p.obtainedSyncLists then (p.newTodoItemList, p)
  else
    let q := p.sync cal log u lastTimeSynced
    (q.newTodoItemList, q)

/-- Embedding of `KOrgTodoPlugin::GetModTodoItems`: the returned list and the plugin afterwards. -/
def GetModTodoItems (p : Plugin) (cal : Calendar) (log : Option (List Byte)) (u : Uninit)
    (lastTimeSynced : Int) : List TodoItemType × Plugin :=
  if p.obtainedSyncLists then (p.modTodoItemList, p)
  else
    let q := p.sync cal log u lastTimeSynced
    (q.modTodoItemList, q)

/-- Embedding of `KOrgTodoPlugin::GetDelTodoItemIDs`: the returned list and the plugin afterwards. -/
def GetDelTodoItemIDs (p : Plugin) (cal : Calendar) (log : Option (List Byte)) (u : Uninit)
    (lastTimeSynced : Int) : SyncIDListType × Plugin :=
  if p.obtainedSyncLists then (p.delTodoItemIdList, p)
  else
    let q := p.sync cal log u lastTimeSynced
    (q.delTodoItemIdList, q)

/-! ## SaveSyncIDLog -/

/-- The counting loop of `SaveSyncIDLog` (lines 863-869). -/
def countSyncIDs (kcalTodoList : Calendar) : Nat :=
  kcalTodoList.foldl (fun numSyncIDs pKcalTodo =>
    if pKcalTodo.pilotId ≠ 0 then numSyncIDs + 1 else numSyncIDs) 0

/-- The writing loop of `SaveSyncIDLog` (lines 874-880), appending to what the stream
already holds. -/
def writeSyncIDs (kcalTodoList : Calendar) (fout : List Byte) : List Byte :=
  kcalTodoList.foldl (fun out pKcalTodo =>
    if pKcalTodo.pilotId ≠ 0 then out ++ le32 pKcalTodo.pilotId else out) fout

/-- Embedding of `KOrgTodoPlugin::SaveSyncIDLog`: return value and the log file afterwards.
`canOpen` tells whether `fout.open(path, std::fstream::out)` succeeds (which empties
the file); `old` is the file before the call. -/
def SaveSyncIDLog (kcalTodoList : Calendar) (canOpen : Bool) (old : Option (List Byte)) :
    Nat × Option (List Byte) :=
  if canOpen = false then (1, old)
  else (0, some (writeSyncIDs kcalTodoList (le32 (countSyncIDs kcalTodoList))))

/-! ## MapItemIDs -/

/-- Embedding of `pCal->todo(uid)`: the position of the first todo with the given UID, `none` being
the null pointer returned when there is none. -/
def Calendar.todo (cal : Calendar) (uid : String) : Option Nat :=
  cal.findIdx? (fun t => t.uid = uid)

/-- Embedding of `pKcalTodo->setPilotId(id)` on the todo at position `i`. -/
def setPilotId : Calendar → Nat → Nat → Calendar
  | [], _, _ => []
  | t :: cal, 0, id => { t with pilotId := id } :: cal
  | t :: cal, i + 1, id => t :: setPilotId cal i id

/-- Embedding of `KOrgTodoPlugin::MapItemIDs`: the return value and the calendar afterwards. The
pointer returned by `pCal->todo` is used without a test; `none` is the run in which a
null pointer is dereferenced, after which there is no return value. -/
def MapItemIDs (cal : Calendar) : List TodoItemType → Option (Nat × Calendar)
  | [] => some (0, cal)
  | curTodoItem :: rest =>
    match cal.todo curTodoItem.appID with
    | none => none
    | some i => MapItemIDs (setPilotId cal i curTodoItem.syncID) rest

/-! ## UpdateKCalTodoItem and ConvTodoItemType

The setters of `KCal::Todo` belong to libkcal, not to the plugin. Each is taken as the
assignment to the members it names; what the observers of a todo do when it changes is
not part of the embedding. -/

/-- The pieces of a character sequence between commas; `cur` holds the characters of the
piece being read, last one first. -/
def splitAtComma : List Char → List Char → List (List Char)
  | cur, [] => [cur.reverse]
  | cur, c :: cs =>
    if c = ',' then cur.reverse :: splitAtComma [] cs else splitAtComma (c :: cur) cs

/-- A character sequence without its leading and trailing white space. -/
def stripWhiteSpace (l : List Char) : List Char :=
  ((l.dropWhile Char.isWhitespace).reverse.dropWhile Char.isWhitespace).reverse

/-- The category list `setCategories(const QString &)` of libkcal stores: none for the
empty string, otherwise the non-empty comma-separated pieces, each stripped of
surrounding white space. -/
def setCategories (catStr : String) : List String :=
  if catStr = "" then []
  else ((splitAtComma [] catStr.toList).filter (fun piece => decide (piece ≠ []))).map
    (fun piece => String.mk (stripWhiteSpace piece))

/-- Embedding of `KOrgTodoPlugin::UpdateKCalTodoItem`: the todo after the setters have
been called in the order of the source. `setCompleted(QDateTime)` stores the date and
marks the todo completed; `setCompleted(bool)` sets the completion state. -/
def UpdateKCalTodoItem (pKCalTodo : Todo) (todoItem : TodoItemType) : Todo :=
  let t := { pKCalTodo with created := todoItem.createdTime }
  let t := { t with lastModified := todoItem.modifiedTime }
  let t := { t with pilotId := todoItem.syncID }
  let t := { t with categories := setCategories todoItem.category }
  let t := if todoItem.startDate ≠ 0 then
      { t with dtStart := todoItem.startDate, hasStartDate := true }
    else { t with hasStartDate := false }
  let t := if todoItem.dueDate ≠ 0 then
      { t with dtDue := todoItem.dueDate, hasDueDate := true }
    else { t with hasDueDate := false }
  let t := if todoItem.completedDate ≠ 0 then
      { t with hasCompletedDate := true, completed := todoItem.completedDate,
               isCompleted := true }
    else t
  let t := if todoItem.progressStatus = 0 then { t with isCompleted := true }
    else { t with isCompleted := false }
  let t := { t with todoPriority := (todoItem.itemPriority : Int) }
  let t := { t with summary := todoItem.description }
  { t with description := todoItem.notes }

/-- A todo as `new KCal::Todo` creates it, with the UID the library generates for it. -/
def newKCalTodo (uid : String) : Todo :=
  { uid := uid, created := 0, lastModified := 0, pilotId := 0, categories := [],
    hasStartDate := false, dtStart := 0, hasDueDate := false, dtDue := 0,
    hasCompletedDate := false, completed := 0, isCompleted := false, todoPriority := 0,
    summary := "", description := "" }

/-- Embedding of `KOrgTodoPlugin::ConvTodoItemType`; `uid` is the UID of the todo that
`new KCal::Todo` creates. -/
def ConvTodoItemType (uid : String) (pTodoItem : TodoItemType) : Todo :=
  UpdateKCalTodoItem (newKCalTodo uid) pTodoItem

/-! ## GetAllTodoItems, AddTodoItems, ModTodoItems, DelTodoItems -/

/-- Embedding of `KOrgTodoPlugin::GetAllTodoItems`, a member function that reads the
calendar only: every converted todo is pushed onto the front of the result. The plugin
members are passed to show that the function does not use them. -/
def GetAllTodoItems (_p : Plugin) (kcalTodoList : Calendar) : List TodoItemType :=
  kcalTodoList.foldl (fun todoItemList pKcalTodo => ConvKCalTodo pKcalTodo :: todoItemList) []

/-- The loop of `AddTodoItems` from the `k`-th item on. `addTodo cal t` tells whether
`pCal->addTodo` accepts the todo `t` when the calendar is `cal`; an accepted todo is
appended to the calendar. `newUid k` is the UID of the `k`-th todo created. -/
def addTodoItemsFrom (addTodo : Calendar → Todo → Bool) (newUid : Nat → String) :
    Nat → Calendar → List TodoItemType → Nat × Calendar
  | _, cal, [] => (0, cal)
  | k, cal, curItem :: rest =>
    let pKCalTodo := ConvTodoItemType (newUid k) curItem
    if addTodo cal pKCalTodo = false then (2, cal)
    else addTodoItemsFrom addTodo newUid (k + 1) (cal ++ [pKCalTodo]) rest

/-- Embedding of `KOrgTodoPlugin::AddTodoItems`: the return value and the calendar
afterwards. -/
def AddTodoItems (addTodo : Calendar → Todo → Bool) (newUid : Nat → String)
    (cal : Calendar) (todoItems : List TodoItemType) : Nat × Calendar :=
  addTodoItemsFrom addTodo newUid 0 cal todoItems

/-- The inner loop of `ModTodoItems` (lines 454-467) for one item: every todo whose
`pilotId` equals the sync ID of the item is updated in place. -/
def modTodoItem (curTodoItem : TodoItemType) (kcalTodoList : Calendar) : Calendar :=
  kcalTodoList.map (fun pKcalTodo =>
    if pKcalTodo.pilotId = curTodoItem.syncID then UpdateKCalTodoItem pKcalTodo curTodoItem
    else pKcalTodo)

/-- Embedding of `KOrgTodoPlugin::ModTodoItems`: the return value and the calendar
afterwards. -/
def ModTodoItems (cal : Calendar) (todoItems : List TodoItemType) : Nat × Calendar :=
  (0, todoItems.foldl (fun kcalTodoList curTodoItem => modTodoItem curTodoItem kcalTodoList) cal)

/-- The todos of a list paired with their position, counted from `k`: the position
stands for the address of the todo object. -/
def withAddress : Nat → List Todo → List (Nat × Todo)
  | _, [] => []
  | k, t :: ts => (k, t) :: withAddress (k + 1) ts

/-- Embedding of `pCal->deleteTodo(pKcalTodo)`: the todo object at the given address is
taken out of the calendar (nothing happens when it is no longer in it). The object stays
readable through the list of pointers obtained before. -/
def deleteTodo (cal : List (Nat × Todo)) (pKcalTodo : Nat) : List (Nat × Todo) :=
  cal.filter (fun e => decide (e.1 ≠ pKcalTodo))

/-- The inner loop of `DelTodoItems` (lines 514-526) for one identifier: it runs over
the list of todos obtained at the start of the call. -/
def delTodoItem (pKCalTodoList : List (Nat × Todo)) (syncID : Nat)
    (cal : List (Nat × Todo)) : List (Nat × Todo) :=
  pKCalTodoList.foldl (fun cal e => if e.2.pilotId = syncID then deleteTodo cal e.1 else cal)
    cal

/-- Embedding of `KOrgTodoPlugin::DelTodoItems`: the return value and the calendar
afterwards. -/
def DelTodoItems (cal : Calendar) (todoItemIDs : SyncIDListType) : Nat × Calendar :=
  let pKCalTodoList := withAddress 0 cal
  if todoItemIDs ≠ [] ∧ pKCalTodoList ≠ [] then
    (0, (todoItemIDs.foldl (fun c syncID => delTodoItem pKCalTodoList syncID c)
      pKCalTodoList).map (fun e => e.2))
  else (0, cal)

/-! ## CleanUp -/

/-- Embedding of `KOrgTodoPlugin::CleanUp`: the return value and the log file
afterwards. `saveOk` is the result of `pCal->save(qCalPath)`, which is called only when
`openedCalFlag` is set. -/
def CleanUp (cal : Calendar) (canOpen : Bool) (old : Option (List Byte))
    (openedCalFlag saveOk : Bool) : Nat × Option (List Byte) :=
  let r := SaveSyncIDLog cal canOpen old
  let retval := if r.1 ≠ 0 then 1 else r.1
  let retval := if openedCalFlag then (if saveOk = false then 2 else retval) else retval
  (retval, r.2)

/-! ## The ledger file read by its format

The vocabulary in which the properties of the ledger are stated: what a byte sequence
holds when it is read as a count field followed by identifier fields. -/

/-- The complete 4-byte fields of a byte sequence, in order. -/
def fields32 : List Byte → List Nat
  | b0 :: b1 :: b2 :: b3 :: rest => decode32 [b0, b1, b2, b3] :: fields32 rest
  | _ => []

/-- The count field at the start of a ledger file. -/
def declaredCount (file : List Byte) : Nat := decode32 (file.take 4)

/-- The identifier fields physically present in a ledger file after the count field. -/
def storedIDs (file : List Byte) : List Nat := fields32 (file.drop 4)

/-- A ledger file is untruncated when it holds the count field and as many identifier
fields as the count field declares. -/
def Untruncated (file : List Byte) : Prop := 4 + 4 * declaredCount file ≤ file.length

instance instDecidableUntruncated (file : List Byte) : Decidable (Untruncated file) := by
  unfold Untruncated; infer_instance

/-- The identifiers of an untruncated ledger: the declared number of stored fields. -/
def ledgerIDs (file : List Byte) : List Nat := (storedIDs file).take (declaredCount file)

/-- The non-zero `pilotId`s of the calendar, in enumeration order. -/
def mappedIDs (cal : Calendar) : List Nat :=
  (cal.filter (fun t => decide (t.pilotId ≠ 0))).map (fun t => t.pilotId)

/-- Every identifier and the number of mapped todos fit the 32-bit `unsigned long int`. -/
def Fits32 (cal : Calendar) : Prop :=
  (∀ t ∈ cal, t.pilotId < 4294967296) ∧ (mappedIDs cal).length < 4294967296

/-- The todos that `AddTodoItems` creates for a list of items, the first of them being
the `k`-th todo created. -/
def convTodosFrom (newUid : Nat → String) : Nat → List TodoItemType → List Todo
  | _, [] => []
  | k, item :: rest => ConvTodoItemType (newUid k) item :: convTodosFrom newUid (k + 1) rest

/-! ## Sample data -/

/-- A todo with the given UID, `pilotId`, creation and modification time, and no
further content. -/
def sampleTodo (uid : String) (pilotId : Nat) (created lastModified : Int) : Todo :=
  { uid := uid, created := created, lastModified := lastModified, pilotId := pilotId,
    categories := [], hasStartDate := false, dtStart := 0, hasDueDate := false, dtDue := 0,
    hasCompletedDate := false, completed := 0, isCompleted := false, todoPriority := 3,
    summary := "", description := "" }

/-- Storage whose initial content is `v` everywhere. -/
def uninitConst (v : Nat) : Uninit := { numSyncIDs := v, pSyncIDs := fun _ => v }

/-- A complete ledger holding the identifiers 10, 20 and 30. -/
def ledgerA : List Byte := le32 3 ++ (le32 10 ++ (le32 20 ++ le32 30))

/-- A calendar whose todos are mapped to 10 and 30. -/
def calendarA : Calendar := [sampleTodo "a" 10 50 60, sampleTodo "c" 30 50 60]

/-- A ledger whose count field declares 5 identifiers and that holds only 10, 20, 30. -/
def ledgerD : List Byte := le32 5 ++ (le32 10 ++ (le32 20 ++ le32 30))

/-- A calendar with a todo mapped to 10 and an unmapped todo whose UID is "x". -/
def calendarE : Calendar := [sampleTodo "a" 10 50 60, sampleTodo "x" 0 70 70]

/-- An item with AppID "x" to which the identifier 42 has been assigned. -/
def itemE : TodoItemType := ConvKCalTodo (sampleTodo "x" 42 70 70)

/-- A calendar with two unmapped todos and, between them, a todo mapped to 7. -/
def calendarU : Calendar :=
  [sampleTodo "u1" 0 10 20, sampleTodo "m" 7 10 20, sampleTodo "u2" 0 30 40]

/-- An item whose sync ID is 0, created at 500 and modified at 600. -/
def itemZ : TodoItemType := ConvKCalTodo (sampleTodo "z" 0 500 600)

/-! ## Lemmas about the loops -/

theorem mem_classifyLoop_new (lts : Int) (cal : Calendar) (n m : List TodoItemType)
    (x : TodoItemType) :
    x ∈ (classifyLoop lts cal n m).1 ↔
      x ∈ n ∨ ∃ t ∈ cal, t.created > lts ∧ t.pilotId = 0 ∧ ConvKCalTodo t = x := by
  induction cal generalizing n m with
  | nil => simp [classifyLoop]
  | cons t cal ih =>
    have ih2 := fun n m => ih n m
    simp only [classifyLoop] at ih2 ⊢
    rw [List.foldl_cons]
    by_cases h1 : t.created > lts ∧ t.pilotId = 0
    · have hs : classifyStep lts (n, m) t = (ConvKCalTodo t :: n, m) := by
        simp only [classifyStep, ConvQDateTime, if_pos h1]
      rw [hs, ih2]
      simp only [List.mem_cons, exists_eq_or_imp]
      constructor
      · rintro ((rfl | h) | h)
        · exact Or.inr (Or.inl ⟨h1.1, h1.2, rfl⟩)
        · exact Or.inl h
        · exact Or.inr (Or.inr h)
      · rintro (h | ⟨_, _, h⟩ | h)
        · exact Or.inl (Or.inr h)
        · exact Or.inl (Or.inl h.symm)
        · exact Or.inr h
    · have hs : (classifyStep lts (n, m) t).1 = n := by
        simp only [classifyStep, ConvQDateTime, if_neg h1]
        split_ifs <;> rfl
      have hfold : ∀ acc : List TodoItemType × List TodoItemType,
          List.foldl (classifyStep lts) acc cal = List.foldl (classifyStep lts) (acc.1, acc.2) cal :=
        fun _ => rfl
      rw [hfold, ih2, hs]
      simp only [List.mem_cons, exists_eq_or_imp]
      constructor
      · rintro (h | h)
        · exact Or.inl h
        · exact Or.inr (Or.inr h)
      · rintro (h | ⟨h3, h4, _⟩ | h)
        · exact Or.inl h
        · exact absurd ⟨h3, h4⟩ h1
        · exact Or.inr h

theorem mem_classifyLoop_mod (lts : Int) (cal : Calendar) (n m : List TodoItemType)
    (x : TodoItemType) :
    x ∈ (classifyLoop lts cal n m).2 ↔
      x ∈ m ∨ ∃ t ∈ cal, t.lastModified > lts ∧ t.pilotId ≠ 0 ∧ ConvKCalTodo t = x := by
  induction cal generalizing n m with
  | nil => simp [classifyLoop]
  | cons t cal ih =>
    have ih2 := fun n m => ih n m
    simp only [classifyLoop] at ih2 ⊢
    rw [List.foldl_cons]
    have hfold : ∀ acc : List TodoItemType × List TodoItemType,
        List.foldl (classifyStep lts) acc cal = List.foldl (classifyStep lts) (acc.1, acc.2) cal :=
      fun _ => rfl
    by_cases h2 : (t.lastModified > lts ∧ t.pilotId ≠ 0) ∧ ¬ (t.created > lts ∧ t.pilotId = 0)
    · have hs : classifyStep lts (n, m) t = (n, ConvKCalTodo t :: m) := by
        simp only [classifyStep, ConvQDateTime, if_neg h2.2, if_pos h2.1]
      rw [hs, ih2]
      simp only [List.mem_cons, exists_eq_or_imp]
      constructor
      · rintro ((rfl | h) | h)
        · exact Or.inr (Or.inl ⟨h2.1.1, h2.1.2, rfl⟩)
        · exact Or.inl h
        · exact Or.inr (Or.inr h)
      · rintro (h | ⟨_, _, h⟩ | h)
        · exact Or.inl (Or.inr h)
        · exact Or.inl (Or.inl h.symm)
        · exact Or.inr h
    · have hs : (classifyStep lts (n, m) t).2 = m := by
        simp only [classifyStep, ConvQDateTime]
        split_ifs with h3 h4
        · rfl
        · exact absurd ⟨h4, h3⟩ h2
        · rfl
      have hcase : ¬ (t.lastModified > lts ∧ t.pilotId ≠ 0 ∧ ConvKCalTodo t = x) ∨
          (t.created > lts ∧ t.pilotId = 0) := by
        by_cases h3 : t.created > lts ∧ t.pilotId = 0
        · exact Or.inr h3
        · exact Or.inl (fun h => h2 ⟨⟨h.1, h.2.1⟩, h3⟩)
      rw [hfold, ih2, hs]
      simp only [List.mem_cons, exists_eq_or_imp]
      constructor
      · rintro (h | h)
        · exact Or.inl h
        · exact Or.inr (Or.inr h)
      · rintro (h | h | h)
        · exact Or.inl h
        · rcases hcase with h5 | h5
          · exact absurd h h5
          · exact absurd h5.2 h.2.1
        · exact Or.inr h

theorem foundSyncID_eq_true (cal : Calendar) (id : Nat) :
    foundSyncID cal id = true ↔ ∃ t ∈ cal, t.pilotId = id := by
  have key : ∀ (l : Calendar) (b : Bool),
      l.foldl (fun found pKcalTodo => if pKcalTodo.pilotId = id then true else found) b = true
        ↔ b = true ∨ ∃ t ∈ l, t.pilotId = id := by
    intro l
    induction l with
    | nil => intro b; simp
    | cons t l ih =>
      intro b
      rw [List.foldl_cons, ih]
      by_cases h : t.pilotId = id
      · simp [h]
      · simp [h]
  unfold foundSyncID
  rw [key]
  simp

theorem foldl_delStep (cal : Calendar) (ids : List Nat) (d : SyncIDListType) :
    ids.foldl (delStep cal) d
      = (ids.filter (fun id => !foundSyncID cal id)).reverse ++ d := by
  induction ids generalizing d with
  | nil => simp
  | cons id ids ih =>
    rw [List.foldl_cons, ih, List.filter_cons]
    unfold delStep
    cases h : foundSyncID cal id <;> simp

theorem mem_foldl_delStep (cal : Calendar) (ids : List Nat) (d : SyncIDListType) (x : Nat) :
    x ∈ ids.foldl (delStep cal) d ↔ x ∈ d ∨ (x ∈ ids ∧ ¬ ∃ t ∈ cal, t.pilotId = x) := by
  rw [foldl_delStep, List.mem_append, List.mem_reverse, List.mem_filter,
    ← foundSyncID_eq_true]
  cases foundSyncID cal x <;> simp [or_comm]

theorem length_readSyncIDs (n i : Nat) (s : IStream) (heap : Nat → Nat) :
    (readSyncIDs n i s heap).length = n := by
  induction n generalizing i s with
  | zero => rfl
  | succ n ih => simp [readSyncIDs, ih]

theorem length_le32 (v : Nat) : (le32 v).length = 4 := rfl

theorem decode32_le32 (v : Nat) (h : v < 4294967296) : decode32 (le32 v) = v := by
  simp only [le32, decode32]
  omega

theorem fields32_le32_append (v : Nat) (rest : List Byte) :
    fields32 (le32 v ++ rest) = decode32 (le32 v) :: fields32 rest := by
  simp [le32, fields32]

theorem fields32_flatMap_le32 (ids : List Nat) (h : ∀ id ∈ ids, id < 4294967296) :
    fields32 (ids.flatMap le32) = ids := by
  induction ids with
  | nil => simp [fields32]
  | cons id ids ih =>
    rw [List.flatMap_cons, fields32_le32_append, decode32_le32 id (h id (by simp)),
      ih (fun x hx => h x (by simp [hx]))]

theorem length_flatMap_le32 (ids : List Nat) : (ids.flatMap le32).length = 4 * ids.length := by
  induction ids with
  | nil => simp
  | cons id ids ih =>
    rw [List.flatMap_cons, List.length_append, ih, length_le32, List.length_cons]
    omega

/-- On a stream that holds all the fields still to be read, the loading loop returns
the next `n` fields of the file, whatever the array held before. -/
theorem readSyncIDs_complete (n i : Nat) (rest : List Byte) (heap : Nat → Nat)
    (h : 4 * n ≤ rest.length) :
    readSyncIDs n i { rest := rest, good := true } heap = (fields32 rest).take n := by
  induction n generalizing i rest with
  | zero => simp [readSyncIDs]
  | succ n ih =>
    match rest, h with
    | b0 :: b1 :: b2 :: b3 :: rest, h =>
      have h4 : 4 * n ≤ rest.length := by
        simp only [List.length_cons] at h
        omega
      simp only [readSyncIDs, IStream.read4, fields32, List.take_succ_cons]
      simp [ih (i + 1) rest h4]
    | [], h => simp at h
    | [_], h => simp at h; omega
    | [_, _], h => simp at h; omega
    | [_, _, _], h => simp at h; omega

theorem countSyncIDs_eq (cal : Calendar) : countSyncIDs cal = (mappedIDs cal).length := by
  have key : ∀ (l : Calendar) (k : Nat),
      l.foldl (fun numSyncIDs pKcalTodo =>
        if pKcalTodo.pilotId ≠ 0 then numSyncIDs + 1 else numSyncIDs) k
        = k + (mappedIDs l).length := by
    intro l
    induction l with
    | nil => intro k; simp [mappedIDs]
    | cons t l ih =>
      intro k
      rw [List.foldl_cons, ih]
      by_cases h : t.pilotId = 0
      · simp [mappedIDs, h]
      · simp [mappedIDs, h]; omega
  unfold countSyncIDs
  rw [key]
  simp

theorem writeSyncIDs_eq (cal : Calendar) (out : List Byte) :
    writeSyncIDs cal out = out ++ (mappedIDs cal).flatMap le32 := by
  induction cal generalizing out with
  | nil => simp [writeSyncIDs, mappedIDs]
  | cons t cal ih =>
    have ih2 := fun out => ih out
    simp only [writeSyncIDs] at ih2 ⊢
    rw [List.foldl_cons, ih2]
    by_cases h : t.pilotId = 0
    · simp [mappedIDs, h]
    · simp [mappedIDs, h]

theorem mem_mappedIDs (cal : Calendar) (id : Nat) :
    id ∈ mappedIDs cal ↔ id ≠ 0 ∧ ∃ t ∈ cal, t.pilotId = id := by
  simp only [mappedIDs, List.mem_map, List.mem_filter, decide_eq_true_eq]
  constructor
  · rintro ⟨t, ⟨ht, h0⟩, rfl⟩
    exact ⟨h0, t, ht, rfl⟩
  · rintro ⟨h0, t, ht, rfl⟩
    exact ⟨t, ⟨ht, h0⟩, rfl⟩

/-! ## GetAllTodoSyncItems and the public queries -/

theorem newItemList_eq (cal : Calendar) (log : Option (List Byte)) (u : Uninit) (lts : Int)
    (n m : List TodoItemType) (d : SyncIDListType) :
    (GetAllTodoSyncItems cal log u lts n m d).newItemList = (classifyLoop lts cal n m).1 := by
  cases log <;> rfl

theorem modItemList_eq (cal : Calendar) (log : Option (List Byte)) (u : Uninit) (lts : Int)
    (n m : List TodoItemType) (d : SyncIDListType) :
    (GetAllTodoSyncItems cal log u lts n m d).modItemList = (classifyLoop lts cal n m).2 := by
  cases log <;> rfl

theorem delItemIdList_none (cal : Calendar) (u : Uninit) (lts : Int)
    (n m : List TodoItemType) (d : SyncIDListType) :
    (GetAllTodoSyncItems cal none u lts n m d).delItemIdList = d := rfl

theorem delItemIdList_some (cal : Calendar) (file : List Byte) (u : Uninit) (lts : Int)
    (n m : List TodoItemType) (d : SyncIDListType) :
    (GetAllTodoSyncItems cal (some file) u lts n m d).delItemIdList
      = (readSyncIDLog file u).pSyncIDs.foldl (delStep cal) d := by
  simp only [GetAllTodoSyncItems, readSyncIDLog, List.take_length]

theorem retval_some (cal : Calendar) (file : List Byte) (u : Uninit) (lts : Int)
    (n m : List TodoItemType) (d : SyncIDListType) :
    (GetAllTodoSyncItems cal (some file) u lts n m d).retval = 0 := by
  simp [GetAllTodoSyncItems, readSyncIDLog, length_readSyncIDs]

theorem GetNewTodoItems_fresh (cal : Calendar) (log : Option (List Byte)) (u : Uninit)
    (lts : Int) :
    (GetNewTodoItems Plugin.fresh cal log u lts).1 = (classifyLoop lts cal [] []).1 := by
  simp [GetNewTodoItems, Plugin.fresh, Plugin.sync, newItemList_eq]

theorem GetModTodoItems_fresh (cal : Calendar) (log : Option (List Byte)) (u : Uninit)
    (lts : Int) :
    (GetModTodoItems Plugin.fresh cal log u lts).1 = (classifyLoop lts cal [] []).2 := by
  simp [GetModTodoItems, Plugin.fresh, Plugin.sync, modItemList_eq]

theorem GetDelTodoItemIDs_fresh_none (cal : Calendar) (u : Uninit) (lts : Int) :
    (GetDelTodoItemIDs Plugin.fresh cal none u lts).1 = [] := by
  simp [GetDelTodoItemIDs, Plugin.fresh, Plugin.sync, delItemIdList_none]

theorem GetDelTodoItemIDs_fresh_some (cal : Calendar) (file : List Byte) (u : Uninit)
    (lts : Int) :
    (GetDelTodoItemIDs Plugin.fresh cal (some file) u lts).1
      = (readSyncIDLog file u).pSyncIDs.foldl (delStep cal) [] := by
  simp [GetDelTodoItemIDs, Plugin.fresh, Plugin.sync, delItemIdList_some]

/-- No identifier reported as deleted is the `pilotId` of a todo of the calendar. -/
theorem not_mem_GetDelTodoItemIDs_fresh (cal : Calendar) (log : Option (List Byte))
    (u : Uninit) (lts : Int) (t : Todo) (ht : t ∈ cal) :
    t.pilotId ∉ (GetDelTodoItemIDs Plugin.fresh cal log u lts).1 := by
  cases log with
  | none => simp [GetDelTodoItemIDs_fresh_none]
  | some file =>
    rw [GetDelTodoItemIDs_fresh_some, mem_foldl_delStep]
    rintro (h | ⟨_, h⟩)
    · simp at h
    · exact h ⟨t, ht, rfl⟩

/-- For an untruncated file the loading code yields the declared count and the
identifiers of the ledger. -/
theorem readSyncIDLog_untruncated (file : List Byte) (u : Uninit) (h : Untruncated file) :
    (readSyncIDLog file u).numSyncIDs = declaredCount file ∧
      (readSyncIDLog file u).pSyncIDs = ledgerIDs file := by
  unfold Untruncated at h
  have h4 : 4 ≤ file.length := by omega
  have hd : 4 * declaredCount file ≤ (file.drop 4).length := by
    rw [List.length_drop]; omega
  have hr : IStream.read4 { rest := file, good := true } u.numSyncIDs
      = (declaredCount file, { rest := file.drop 4, good := true }) := by
    simp [IStream.read4, h4, declaredCount]
  simp only [readSyncIDLog, hr, ledgerIDs, storedIDs]
  simp [readSyncIDs_complete _ _ _ _ hd]

/-! ## Lemmas about MapItemIDs and the saved file -/

theorem Calendar.todo_of_mem (cal : Calendar) (uid : String) (h : ∃ t ∈ cal, t.uid = uid) :
    ∃ i t, cal.todo uid = some i ∧ cal[i]? = some t ∧ t.uid = uid ∧
      ∀ j t2, j < i → cal[j]? = some t2 → t2.uid ≠ uid := by
  induction cal with
  | nil => simp at h
  | cons x xs ih =>
    by_cases hx : x.uid = uid
    · refine ⟨0, x, ?_, by simp, hx, ?_⟩
      · simp [Calendar.todo, List.findIdx?_cons, hx]
      · intro j t2 hj
        omega
    · have hxs : ∃ t ∈ xs, t.uid = uid := by
        obtain ⟨t, ht, hu⟩ := h
        rcases List.mem_cons.mp ht with rfl | ht2
        · exact absurd hu hx
        · exact ⟨t, ht2, hu⟩
      obtain ⟨i, t, hi, hget, hu, hfirst⟩ := ih hxs
      refine ⟨i + 1, t, ?_, by simpa using hget, hu, ?_⟩
      · simp only [Calendar.todo] at hi ⊢
        rw [List.findIdx?_cons, List.findIdx?_succ, hi]
        simp [hx]
      · intro j t2 hj hget2
        cases j with
        | zero =>
          simp only [List.getElem?_cons_zero, Option.some.injEq] at hget2
          rw [← hget2]
          exact hx
        | succ j =>
          simp only [List.getElem?_cons_succ] at hget2
          exact hfirst j t2 (by omega) hget2

theorem length_setPilotId (cal : Calendar) (i id : Nat) :
    (setPilotId cal i id).length = cal.length := by
  induction cal generalizing i with
  | nil => rfl
  | cons t cal ih =>
    cases i with
    | zero => rfl
    | succ i => simp [setPilotId, ih]

theorem getElem?_setPilotId_self (cal : Calendar) (i id : Nat) (t : Todo)
    (h : cal[i]? = some t) : (setPilotId cal i id)[i]? = some { t with pilotId := id } := by
  induction cal generalizing i with
  | nil => simp at h
  | cons x cal ih =>
    cases i with
    | zero =>
      simp only [List.getElem?_cons_zero, Option.some.injEq] at h
      simp [setPilotId, h]
    | succ i =>
      simp only [List.getElem?_cons_succ] at h
      simp [setPilotId, ih i h]

theorem getElem?_setPilotId_ne (cal : Calendar) (i j id : Nat) (h : j ≠ i) :
    (setPilotId cal i id)[j]? = cal[j]? := by
  induction cal generalizing i j with
  | nil => rfl
  | cons x cal ih =>
    cases i with
    | zero =>
      cases j with
      | zero => exact absurd rfl h
      | succ j => simp [setPilotId]
    | succ i =>
      cases j with
      | zero => simp [setPilotId]
      | succ j =>
        simp only [setPilotId, List.getElem?_cons_succ]
        exact ih i j (by omega)

theorem decode32_le32_mod (v : Nat) : decode32 (le32 v) = v % 4294967296 := by
  simp only [le32, decode32]
  omega

theorem fields32_flatMap_le32_mod (ids : List Nat) :
    fields32 (ids.flatMap le32) = ids.map (fun id => id % 4294967296) := by
  induction ids with
  | nil => simp [fields32]
  | cons id ids ih =>
    rw [List.flatMap_cons, fields32_le32_append, decode32_le32_mod, ih, List.map_cons]

theorem SaveSyncIDLog_true (cal : Calendar) (old : Option (List Byte)) :
    SaveSyncIDLog cal true old
      = (0, some (le32 (mappedIDs cal).length ++ (mappedIDs cal).flatMap le32)) := by
  simp [SaveSyncIDLog, writeSyncIDs_eq, countSyncIDs_eq]

theorem storedIDs_saved (ids : List Nat) :
    storedIDs (le32 ids.length ++ ids.flatMap le32) = ids.map (fun id => id % 4294967296) := by
  rw [storedIDs]
  have hdrop : List.drop 4 (le32 ids.length ++ ids.flatMap le32) = ids.flatMap le32 :=
    List.drop_left (le32 ids.length) _
  rw [hdrop, fields32_flatMap_le32_mod]

theorem declaredCount_saved (ids : List Nat) :
    declaredCount (le32 ids.length ++ ids.flatMap le32) = ids.length % 4294967296 := by
  rw [declaredCount, List.take_append_of_le_length (by rw [length_le32]),
    List.take_of_length_le (by rw [length_le32]), decode32_le32_mod]

theorem length_mappedIDs_le (cal : Calendar) : (mappedIDs cal).length ≤ cal.length := by
  simp only [mappedIDs, List.length_map]
  exact List.length_filter_le _ _

/-! ## Lemmas about AddTodoItems -/

theorem length_convTodosFrom (newUid : Nat → String) (k : Nat) (items : List TodoItemType) :
    (convTodosFrom newUid k items).length = items.length := by
  induction items generalizing k with
  | nil => rfl
  | cons item rest ih => simp [convTodosFrom, ih]

/-- The loop of `AddTodoItems` adds a prefix of the items: every item of the prefix was
accepted, and either the prefix is the whole list and the result is 0, or the item after
the prefix was rejected and the result is 2. -/
theorem addTodoItemsFrom_spec (addTodo : Calendar → Todo → Bool) (newUid : Nat → String)
    (items : List TodoItemType) (k : Nat) (cal : Calendar) :
    ∃ n, n ≤ items.length ∧
      (addTodoItemsFrom addTodo newUid k cal items).2
        = cal ++ convTodosFrom newUid k (items.take n) ∧
      (∀ j item, j < n → items[j]? = some item →
        addTodo (cal ++ convTodosFrom newUid k (items.take j))
          (ConvTodoItemType (newUid (k + j)) item) = true) ∧
      ((n = items.length ∧ (addTodoItemsFrom addTodo newUid k cal items).1 = 0) ∨
        (∃ item, items[n]? = some item ∧
          addTodo (cal ++ convTodosFrom newUid k (items.take n))
            (ConvTodoItemType (newUid (k + n)) item) = false ∧
          (addTodoItemsFrom addTodo newUid k cal items).1 = 2)) := by
  induction items generalizing k cal with
  | nil =>
    refine ⟨0, le_refl _, by simp [addTodoItemsFrom, convTodosFrom], ?_, Or.inl ⟨rfl, rfl⟩⟩
    intro j item hj
    omega
  | cons item rest ih =>
    by_cases hadd : addTodo cal (ConvTodoItemType (newUid k) item) = false
    · refine ⟨0, Nat.zero_le _, by simp [addTodoItemsFrom, hadd, convTodosFrom], ?_,
        Or.inr ⟨item, by simp, by simpa [convTodosFrom] using hadd,
          by simp [addTodoItemsFrom, hadd]⟩⟩
      intro j item2 hj
      omega
    · have hstep : addTodoItemsFrom addTodo newUid k cal (item :: rest)
          = addTodoItemsFrom addTodo newUid (k + 1)
              (cal ++ [ConvTodoItemType (newUid k) item]) rest := by
        simp [addTodoItemsFrom, hadd]
      obtain ⟨n, hn, hcal, hacc, hend⟩ :=
        ih (k + 1) (cal ++ [ConvTodoItemType (newUid k) item])
      have happ : ∀ m, cal ++ [ConvTodoItemType (newUid k) item] ++
            convTodosFrom newUid (k + 1) (rest.take m)
          = cal ++ convTodosFrom newUid k ((item :: rest).take (m + 1)) := by
        intro m
        simp [convTodosFrom]
      refine ⟨n + 1, by simpa using hn, ?_, ?_, ?_⟩
      · rw [hstep, hcal, happ]
      · intro j item2 hj hget
        cases j with
        | zero =>
          simp only [List.getElem?_cons_zero, Option.some.injEq] at hget
          subst hget
          simpa [convTodosFrom] using hadd
        | succ j =>
          simp only [List.getElem?_cons_succ] at hget
          have h1 := hacc j item2 (by omega) hget
          rw [happ] at h1
          have hk : k + (j + 1) = k + 1 + j := by omega
          rw [hk]
          exact h1
      · rcases hend with ⟨hlen, hret⟩ | ⟨item2, hget, hrej, hret⟩
        · exact Or.inl ⟨by simp [hlen], by rw [hstep, hret]⟩
        · refine Or.inr ⟨item2, by simpa using hget, ?_, by rw [hstep, hret]⟩
          rw [happ] at hrej
          have hk : k + (n + 1) = k + 1 + n := by omega
          rw [hk]
          exact hrej

/-! ## Lemmas about DelTodoItems -/

theorem mem_withAddress (l : List Todo) (k a : Nat) (t : Todo) :
    (a, t) ∈ withAddress k l ↔ ∃ j, a = k + j ∧ l[j]? = some t := by
  induction l generalizing k with
  | nil => simp [withAddress]
  | cons x xs ih =>
    simp only [withAddress, List.mem_cons, Prod.mk.injEq, ih]
    constructor
    · rintro (⟨rfl, rfl⟩ | ⟨j, rfl, hj⟩)
      · exact ⟨0, rfl, by simp⟩
      · exact ⟨j + 1, by omega, by simpa using hj⟩
    · rintro ⟨j, rfl, hj⟩
      cases j with
      | zero =>
        simp only [List.getElem?_cons_zero, Option.some.injEq] at hj
        exact Or.inl ⟨rfl, hj.symm⟩
      | succ j =>
        simp only [List.getElem?_cons_succ] at hj
        exact Or.inr ⟨j, by omega, hj⟩

theorem withAddress_unique (l : List Todo) (k : Nat) (e s : Nat × Todo)
    (he : e ∈ withAddress k l) (hs : s ∈ withAddress k l) (h : e.1 = s.1) : e = s := by
  obtain ⟨a, t⟩ := e
  obtain ⟨b, t2⟩ := s
  obtain ⟨j, hj, hget⟩ := (mem_withAddress l k a t).mp he
  obtain ⟨j2, hj2, hget2⟩ := (mem_withAddress l k b t2).mp hs
  simp only at h
  have hjj : j = j2 := by omega
  subst hjj
  rw [hget] at hget2
  simp only [Option.some.injEq] at hget2
  rw [h, hget2]

theorem map_snd_withAddress (l : List Todo) (k : Nat) :
    (withAddress k l).map (fun e => e.2) = l := by
  induction l generalizing k with
  | nil => rfl
  | cons x xs ih => simp [withAddress, ih]

theorem foldl_deleteTodo (snap : List (Nat × Todo)) (id : Nat) (cur : List (Nat × Todo)) :
    delTodoItem snap id cur
      = cur.filter (fun e => snap.all (fun s => decide (s.2.pilotId = id → e.1 ≠ s.1))) := by
  unfold delTodoItem
  induction snap generalizing cur with
  | nil => simp
  | cons s snap ih =>
    rw [List.foldl_cons, ih]
    by_cases hs : s.2.pilotId = id
    · simp only [hs, if_true, deleteTodo, List.filter_filter, List.all_cons]
      apply List.filter_congr
      intro e _
      simp [Bool.and_comm]
    · simp only [hs, if_false, List.all_cons]
      apply List.filter_congr
      intro e _
      simp [hs]

theorem delTodoItem_eq (cal : Calendar) (id : Nat) (cur : List (Nat × Todo))
    (hcur : ∀ e ∈ cur, e ∈ withAddress 0 cal) :
    delTodoItem (withAddress 0 cal) id cur
      = cur.filter (fun e => decide (e.2.pilotId ≠ id)) := by
  rw [foldl_deleteTodo]
  apply List.filter_congr
  intro e he
  by_cases hid : e.2.pilotId = id
  · have hfalse : (withAddress 0 cal).all
        (fun s => decide (s.2.pilotId = id → e.1 ≠ s.1)) = false := by
      rw [List.all_eq_false]
      exact ⟨e, hcur e he, by simp [hid]⟩
    rw [hfalse]
    simp [hid]
  · have htrue : (withAddress 0 cal).all
        (fun s => decide (s.2.pilotId = id → e.1 ≠ s.1)) = true := by
      rw [List.all_eq_true]
      intro s hs
      simp only [decide_eq_true_eq]
      intro hsid h1
      have := withAddress_unique cal 0 e s (hcur e he) hs h1
      rw [this] at hid
      exact hid hsid
    rw [htrue]
    simp [hid]

theorem foldl_delTodoItem (cal : Calendar) (ids : List Nat) (cur : List (Nat × Todo))
    (hcur : ∀ e ∈ cur, e ∈ withAddress 0 cal) :
    ids.foldl (fun c syncID => delTodoItem (withAddress 0 cal) syncID c) cur
      = cur.filter (fun e => decide (e.2.pilotId ∉ ids)) := by
  induction ids generalizing cur with
  | nil => simp
  | cons id ids ih =>
    rw [List.foldl_cons, delTodoItem_eq cal id cur hcur, ih]
    · rw [List.filter_filter]
      apply List.filter_congr
      intro e _
      by_cases h1 : e.2.pilotId = id
      · simp [h1]
      · by_cases h2 : e.2.pilotId ∈ ids
        · simp [h1, h2]
        · simp [h1, h2]
    · intro e he
      exact hcur e (List.mem_filter.mp he).1

/-! ## Lemmas about UpdateKCalTodoItem and ModTodoItems -/

/-- The loading code applied to the file `SaveSyncIDLog` writes for a calendar whose
identifiers fit 32 bits returns the non-zero `pilotId`s of that calendar. -/
theorem readSyncIDLog_saved (cal : Calendar) (u : Uninit) (hfit : Fits32 cal) :
    (readSyncIDLog (le32 (mappedIDs cal).length ++ (mappedIDs cal).flatMap le32) u).pSyncIDs
      = mappedIDs cal := by
  have hids : ∀ id ∈ mappedIDs cal, id < 4294967296 := by
    intro id hmem
    obtain ⟨_, t, ht, rfl⟩ := (mem_mappedIDs cal id).mp hmem
    exact hfit.1 t ht
  have hcount := declaredCount_saved (mappedIDs cal)
  rw [Nat.mod_eq_of_lt hfit.2] at hcount
  have hstored : storedIDs (le32 (mappedIDs cal).length ++ (mappedIDs cal).flatMap le32)
      = mappedIDs cal := by
    rw [storedIDs_saved]
    conv => rhs; rw [← List.map_id (mappedIDs cal)]
    apply List.map_congr_left
    intro id hmem
    exact Nat.mod_eq_of_lt (hids id hmem)
  have hunt : Untruncated (le32 (mappedIDs cal).length ++ (mappedIDs cal).flatMap le32) := by
    unfold Untruncated
    rw [hcount, List.length_append, length_le32, length_flatMap_le32]
  rw [(readSyncIDLog_untruncated _ u hunt).2, ledgerIDs, hstored, hcount, List.take_length]

/-- The deletion pass over identifiers that all belong to todos of the calendar reports
nothing. -/
theorem foldl_delStep_mappedIDs (cal : Calendar) :
    (mappedIDs cal).foldl (delStep cal) [] = [] := by
  rw [List.eq_nil_iff_forall_not_mem]
  intro x hx
  rw [mem_foldl_delStep] at hx
  rcases hx with h | ⟨hmem, hno⟩
  · simp at h
  · exact hno ((mem_mappedIDs cal x).mp hmem).2

/-! ## The apply operations on sample data -/

/-- With a store that refuses the todo mapped to 7, `AddTodoItems` adds the first item,
stops at the second and returns 2; the third item is not added. -/
theorem AddTodoItems_sample :
    AddTodoItems (fun _ t => decide (t.pilotId ≠ 7)) (fun k => if k = 0 then "u0" else "u1")
        calendarA [itemE, ConvKCalTodo (sampleTodo "q" 7 5 6), itemE]
      = (2, calendarA ++ [ConvTodoItemType "u0" itemE]) := by
  decide

/-- The item bound to 10 overwrites the todo mapped to 10; the item bound to 99 matches
no todo and the unmapped todo "x" is left as it is. -/
theorem ModTodoItems_sample :
    ModTodoItems calendarE
        [ConvKCalTodo (sampleTodo "other" 10 500 600), ConvKCalTodo (sampleTodo "z" 99 1 2)]
      = (0, [sampleTodo "a" 10 500 600, sampleTodo "x" 0 70 70]) := by
  decide

/-- Deleting the identifiers 30 and 99 (30 listed twice) removes the todo mapped to 30
and nothing else. -/
theorem DelTodoItems_sample :
    DelTodoItems calendarA [30, 99, 30] = (0, [sampleTodo "a" 10 50 60]) := by
  decide

/-! ## The claims -/

/-- C1. On the first delta computation of a plugin instance, for every calendar, cutoff
and ledger file (also a missing one), a calendar todo with `pilotId == 0` created after
the cutoff has its converted item in the list returned by `GetNewTodoItems`, does not
have it in the list returned by `GetModTodoItems`, and its identifier is not in the
list returned by `GetDelTodoItemIDs`. -/
theorem c1_unmapped_created_after_cutoff_is_new (cal : Calendar)
    (log : Option (List Byte)) (u : Uninit) (lastTimeSynced : Int) (t : Todo)
    (ht : t ∈ cal) (hid : t.pilotId = 0) (hc : t.created > lastTimeSynced) :
    ConvKCalTodo t ∈ (GetNewTodoItems Plugin.fresh cal log u lastTimeSynced).1 ∧
      ConvKCalTodo t ∉ (GetModTodoItems Plugin.fresh cal log u lastTimeSynced).1 ∧
      (ConvKCalTodo t).syncID ∉ (GetDelTodoItemIDs Plugin.fresh cal log u lastTimeSynced).1 := by
  refine ⟨?_, ?_, ?_⟩
  · rw [GetNewTodoItems_fresh, mem_classifyLoop_new]
    exact Or.inr ⟨t, ht, hc, hid, rfl⟩
  · rw [GetModTodoItems_fresh, mem_classifyLoop_mod]
    rintro (h | ⟨t2, _, _, h2, heq⟩)
    · simp at h
    · have hs : (ConvKCalTodo t2).syncID = (ConvKCalTodo t).syncID := by rw [heq]
      simp only [ConvKCalTodo] at hs
      exact h2 (hs.trans hid)
  · exact not_mem_GetDelTodoItemIDs_fresh cal log u lastTimeSynced t ht

/-- C1, scenario B: an unmapped todo created at T+5 with cutoff T = 1000. -/
theorem c1_unmapped_created_after_cutoff_is_new_witness :
    sampleTodo "b" 0 1005 1005 ∈ [sampleTodo "b" 0 1005 1005] ∧
      (sampleTodo "b" 0 1005 1005).pilotId = 0 ∧
      (sampleTodo "b" 0 1005 1005).created > 1000 ∧
      ConvKCalTodo (sampleTodo "b" 0 1005 1005) ∈
        (GetNewTodoItems Plugin.fresh [sampleTodo "b" 0 1005 1005] (some ledgerA)
          (uninitConst 7) 1000).1 ∧
      ConvKCalTodo (sampleTodo "b" 0 1005 1005) ∉
        (GetModTodoItems Plugin.fresh [sampleTodo "b" 0 1005 1005] (some ledgerA)
          (uninitConst 7) 1000).1 ∧
      (ConvKCalTodo (sampleTodo "b" 0 1005 1005)).syncID ∉
        (GetDelTodoItemIDs Plugin.fresh [sampleTodo "b" 0 1005 1005] (some ledgerA)
          (uninitConst 7) 1000).1 :=
  ⟨List.mem_singleton.mpr rfl, rfl, by decide,
    c1_unmapped_created_after_cutoff_is_new [sampleTodo "b" 0 1005 1005] (some ledgerA)
      (uninitConst 7) 1000 (sampleTodo "b" 0 1005 1005) (List.mem_singleton.mpr rfl) rfl
      (by decide)⟩

/-- C2. On the first delta computation of a plugin instance, for every calendar, cutoff
and ledger file, a calendar todo with `pilotId != 0` whose last modification is after
the cutoff has its converted item in the list returned by `GetModTodoItems`, whatever
its creation time. -/
theorem c2_mapped_modified_after_cutoff_is_modified (cal : Calendar)
    (log : Option (List Byte)) (u : Uninit) (lastTimeSynced : Int) (t : Todo)
    (ht : t ∈ cal) (hid : t.pilotId ≠ 0) (hm : t.lastModified > lastTimeSynced) :
    ConvKCalTodo t ∈ (GetModTodoItems Plugin.fresh cal log u lastTimeSynced).1 := by
  rw [GetModTodoItems_fresh, mem_classifyLoop_mod]
  exact Or.inr ⟨t, ht, hm, hid, rfl⟩

/-- C2 at a todo mapped to 7, created after the cutoff 1000 and modified after it. -/
theorem c2_mapped_modified_after_cutoff_is_modified_witness :
    sampleTodo "m" 7 1001 1002 ∈ [sampleTodo "m" 7 1001 1002] ∧
      (sampleTodo "m" 7 1001 1002).pilotId ≠ 0 ∧
      (sampleTodo "m" 7 1001 1002).lastModified > 1000 ∧
      ConvKCalTodo (sampleTodo "m" 7 1001 1002) ∈
        (GetModTodoItems Plugin.fresh [sampleTodo "m" 7 1001 1002] none (uninitConst 0) 1000).1 :=
  ⟨List.mem_singleton.mpr rfl, by decide, by decide,
    c2_mapped_modified_after_cutoff_is_modified [sampleTodo "m" 7 1001 1002] none
      (uninitConst 0) 1000 (sampleTodo "m" 7 1001 1002) (List.mem_singleton.mpr rfl)
      (by decide) (by decide)⟩

/-- C3. On the first delta computation, a todo that satisfies neither
(`pilotId == 0` and created after the cutoff) nor (`pilotId != 0` and modified after the
cutoff) has its converted item in neither the new nor the modified list; and no item is
in both lists. -/
theorem c3_otherwise_unchanged_and_lists_disjoint (cal : Calendar)
    (log : Option (List Byte)) (u : Uninit) (lastTimeSynced : Int) (t : Todo)
    (hnew : ¬ (t.pilotId = 0 ∧ t.created > lastTimeSynced))
    (hmod : ¬ (t.pilotId ≠ 0 ∧ t.lastModified > lastTimeSynced)) :
    (ConvKCalTodo t ∉ (GetNewTodoItems Plugin.fresh cal log u lastTimeSynced).1 ∧
      ConvKCalTodo t ∉ (GetModTodoItems Plugin.fresh cal log u lastTimeSynced).1) ∧
      ∀ x : TodoItemType,
        ¬ (x ∈ (GetNewTodoItems Plugin.fresh cal log u lastTimeSynced).1 ∧
          x ∈ (GetModTodoItems Plugin.fresh cal log u lastTimeSynced).1) := by
  refine ⟨⟨?_, ?_⟩, ?_⟩
  · rw [GetNewTodoItems_fresh, mem_classifyLoop_new]
    rintro (h | ⟨t2, _, hc, hid, heq⟩)
    · simp at h
    · have hs : (ConvKCalTodo t2).syncID = (ConvKCalTodo t).syncID := by rw [heq]
      have hk : (ConvKCalTodo t2).createdTime = (ConvKCalTodo t).createdTime := by rw [heq]
      simp only [ConvKCalTodo, ConvQDateTime] at hs hk
      exact hnew ⟨hs ▸ hid, hk ▸ hc⟩
  · rw [GetModTodoItems_fresh, mem_classifyLoop_mod]
    rintro (h | ⟨t2, _, hm, hid, heq⟩)
    · simp at h
    · have hs : (ConvKCalTodo t2).syncID = (ConvKCalTodo t).syncID := by rw [heq]
      have hk : (ConvKCalTodo t2).modifiedTime = (ConvKCalTodo t).modifiedTime := by rw [heq]
      simp only [ConvKCalTodo, ConvQDateTime] at hs hk
      exact hmod ⟨hs ▸ hid, hk ▸ hm⟩
  · intro x
    rw [GetNewTodoItems_fresh, GetModTodoItems_fresh, mem_classifyLoop_new,
      mem_classifyLoop_mod]
    rintro ⟨h1 | ⟨t1, _, _, hid1, heq1⟩, h2 | ⟨t2, _, _, hid2, heq2⟩⟩
    · simp at h1
    · simp at h1
    · simp at h2
    · have hs : (ConvKCalTodo t1).syncID = (ConvKCalTodo t2).syncID := by rw [heq1, heq2]
      simp only [ConvKCalTodo] at hs
      exact hid2 (hs ▸ hid1)

/-- C3 at an unmapped todo created exactly at the cutoff 1000 and modified after it,
in a calendar that also holds scenario C (mapped to 7, modified at T-5). -/
theorem c3_otherwise_unchanged_and_lists_disjoint_witness :
    ¬ ((sampleTodo "e" 0 1000 1005).pilotId = 0 ∧ (sampleTodo "e" 0 1000 1005).created > 1000) ∧
      ¬ ((sampleTodo "e" 0 1000 1005).pilotId ≠ 0 ∧
        (sampleTodo "e" 0 1000 1005).lastModified > 1000) ∧
      ((ConvKCalTodo (sampleTodo "e" 0 1000 1005) ∉
          (GetNewTodoItems Plugin.fresh [sampleTodo "e" 0 1000 1005, sampleTodo "c" 7 900 995]
            none (uninitConst 0) 1000).1 ∧
        ConvKCalTodo (sampleTodo "e" 0 1000 1005) ∉
          (GetModTodoItems Plugin.fresh [sampleTodo "e" 0 1000 1005, sampleTodo "c" 7 900 995]
            none (uninitConst 0) 1000).1) ∧
        ∀ x : TodoItemType,
          ¬ (x ∈ (GetNewTodoItems Plugin.fresh
                [sampleTodo "e" 0 1000 1005, sampleTodo "c" 7 900 995] none (uninitConst 0)
                1000).1 ∧
            x ∈ (GetModTodoItems Plugin.fresh
                [sampleTodo "e" 0 1000 1005, sampleTodo "c" 7 900 995] none (uninitConst 0)
                1000).1)) :=
  ⟨by decide, by decide,
    c3_otherwise_unchanged_and_lists_disjoint
      [sampleTodo "e" 0 1000 1005, sampleTodo "c" 7 900 995] none (uninitConst 0) 1000
      (sampleTodo "e" 0 1000 1005) (by decide) (by decide)⟩

/-- C4. For every untruncated ledger file and every calendar, on the first delta
computation an identifier of the ledger is in the list returned by `GetDelTodoItemIDs`
if and only if no todo of the calendar has it as `pilotId`. -/
theorem c4_deleted_iff_absent_from_calendar (cal : Calendar) (file : List Byte)
    (u : Uninit) (lastTimeSynced : Int) (id : Nat)
    (hfile : Untruncated file) (hid : id ∈ ledgerIDs file) :
    id ∈ (GetDelTodoItemIDs Plugin.fresh cal (some file) u lastTimeSynced).1 ↔
      ¬ ∃ t ∈ cal, t.pilotId = id := by
  rw [GetDelTodoItemIDs_fresh_some, mem_foldl_delStep,
    (readSyncIDLog_untruncated file u hfile).2]
  constructor
  · rintro (h | ⟨_, h⟩)
    · simp at h
    · exact h
  · intro h
    exact Or.inr ⟨hid, h⟩

/-- C4, scenario A: ledger 10, 20, 30 and a calendar mapped to 10 and 30 give the
deleted list 20. -/
theorem c4_deleted_iff_absent_from_calendar_witness :
    Untruncated ledgerA ∧ 20 ∈ ledgerIDs ledgerA ∧
      (20 ∈ (GetDelTodoItemIDs Plugin.fresh calendarA (some ledgerA) (uninitConst 99) 1000).1 ↔
        ¬ ∃ t ∈ calendarA, t.pilotId = 20) ∧
      (GetDelTodoItemIDs Plugin.fresh calendarA (some ledgerA) (uninitConst 99) 1000).1 = [20] :=
  ⟨by decide, by decide,
    c4_deleted_iff_absent_from_calendar calendarA ledgerA (uninitConst 99) 1000 20
      (by decide) (by decide),
    by decide⟩

/-- C5, evaluated on the code. The log file declares 5 identifiers and holds only 10, 20
and 30. Whatever the array held before, the loading loop counts 5 identifiers read, the
two array elements no read has filled are used as identifiers, `GetAllTodoSyncItems`
returns 0 (not the status 3 of its documentation), and with an empty calendar all five
array elements are reported as deleted. -/
theorem c5_truncated_log_is_read_as_complete (u : Uninit) (lastTimeSynced : Int) :
    declaredCount ledgerD = 5 ∧ storedIDs ledgerD = [10, 20, 30] ∧
      (readSyncIDLog ledgerD u).numSyncIDsRead = 5 ∧
      (readSyncIDLog ledgerD u).pSyncIDs
        = [10, 20, 30, u.pSyncIDs 3 % 4294967296, u.pSyncIDs 4 % 4294967296] ∧
      (GetAllTodoSyncItems [] (some ledgerD) u lastTimeSynced [] [] []).retval = 0 ∧
      (GetAllTodoSyncItems [] (some ledgerD) u lastTimeSynced [] [] []).delItemIdList
        = [u.pSyncIDs 4 % 4294967296, u.pSyncIDs 3 % 4294967296, 30, 20, 10] := by
  have hp : (readSyncIDLog ledgerD u).pSyncIDs
      = [10, 20, 30, u.pSyncIDs 3 % 4294967296, u.pSyncIDs 4 % 4294967296] := by
    simp only [readSyncIDLog, ledgerD, le32, IStream.read4, readSyncIDs, decode32]
    simp
    omega
  refine ⟨by decide, by decide, ?_, hp, retval_some _ _ _ _ _ _ _, ?_⟩
  · simp [readSyncIDLog, length_readSyncIDs, IStream.read4, ledgerD, le32, decode32]
  · rw [delItemIdList_some, hp]
    simp [delStep, foundSyncID]

/-- C6, evaluated on the code. With the log file that declares 5 identifiers and holds
10, 20 and 30, a calendar mapped to 10 and 30, and an array whose elements held 77
before, the deleted list is 77, 77, 20: the identifier 77 is reported as deleted although
the file does not contain it. -/
theorem c6_identifier_not_in_log_reported_deleted :
    (GetDelTodoItemIDs Plugin.fresh calendarA (some ledgerD) (uninitConst 77) 1000).1
        = [77, 77, 20] ∧
      77 ∉ storedIDs ledgerD ∧
      (GetAllTodoSyncItems calendarA (some ledgerD) (uninitConst 77) 1000 [] [] []).retval = 0 := by
  decide

/-- C7. Round trip: when `SaveSyncIDLog` succeeds on a calendar whose identifiers fit 32
bits and the file it wrote is read by the loading part of `GetAllTodoSyncItems`, the
identifiers loaded are the non-zero `pilotId`s of the calendar (as a list in enumeration
order, hence as a set), all declared identifiers are read, and `GetAllTodoSyncItems`
returns 0 on that file. -/
theorem c7_save_then_load_round_trip (cal : Calendar) (canOpen : Bool)
    (old : Option (List Byte)) (file : List Byte) (u : Uninit)
    (hfit : Fits32 cal) (hsave : SaveSyncIDLog cal canOpen old = (0, some file)) :
    (readSyncIDLog file u).pSyncIDs
        = (cal.filter (fun t => decide (t.pilotId ≠ 0))).map (fun t => t.pilotId) ∧
      (∀ id, id ∈ (readSyncIDLog file u).pSyncIDs ↔ id ≠ 0 ∧ ∃ t ∈ cal, t.pilotId = id) ∧
      (readSyncIDLog file u).numSyncIDsRead = (readSyncIDLog file u).numSyncIDs ∧
      ∀ (cal2 : Calendar) (lts : Int) (n m : List TodoItemType) (d : SyncIDListType),
        (GetAllTodoSyncItems cal2 (some file) u lts n m d).retval = 0 := by
  have hfile : file = le32 (mappedIDs cal).length ++ (mappedIDs cal).flatMap le32 := by
    cases canOpen with
    | false => simp [SaveSyncIDLog] at hsave
    | true =>
      simp only [SaveSyncIDLog, Bool.true_eq_false, if_false, Prod.mk.injEq,
        Option.some.injEq, true_and] at hsave
      rw [← hsave, writeSyncIDs_eq, countSyncIDs_eq]
  have hids : ∀ id ∈ mappedIDs cal, id < 4294967296 := by
    intro id hmem
    obtain ⟨_, t, ht, rfl⟩ := (mem_mappedIDs cal id).mp hmem
    exact hfit.1 t ht
  have hcount : declaredCount file = (mappedIDs cal).length := by
    rw [hfile, declaredCount,
      List.take_append_of_le_length (by rw [length_le32]),
      List.take_of_length_le (by rw [length_le32]), decode32_le32 _ hfit.2]
  have hstored : storedIDs file = mappedIDs cal := by
    rw [hfile, storedIDs]
    have hdrop : List.drop 4 (le32 (mappedIDs cal).length ++ (mappedIDs cal).flatMap le32)
        = (mappedIDs cal).flatMap le32 := List.drop_left (le32 (mappedIDs cal).length) _
    rw [hdrop, fields32_flatMap_le32 _ hids]
  have hunt : Untruncated file := by
    unfold Untruncated
    rw [hcount, hfile, List.length_append, length_le32, length_flatMap_le32]
  have hread := readSyncIDLog_untruncated file u hunt
  have hp : (readSyncIDLog file u).pSyncIDs = mappedIDs cal := by
    rw [hread.2, ledgerIDs, hstored, hcount, List.take_length]
  refine ⟨hp, ?_, ?_, fun cal2 lts n m d => retval_some cal2 file u lts n m d⟩
  · intro id
    rw [hp, mem_mappedIDs]
  · simp [readSyncIDLog, length_readSyncIDs]

/-- C7 at a calendar with an unmapped todo between two mapped ones. -/
theorem c7_save_then_load_round_trip_witness :
    Fits32 [sampleTodo "a" 10 50 60, sampleTodo "n" 0 50 60, sampleTodo "c" 30 50 60] ∧
      SaveSyncIDLog [sampleTodo "a" 10 50 60, sampleTodo "n" 0 50 60, sampleTodo "c" 30 50 60]
          true (some ledgerD) = (0, some (le32 2 ++ (le32 10 ++ le32 30))) ∧
      (readSyncIDLog (le32 2 ++ (le32 10 ++ le32 30)) (uninitConst 77)).pSyncIDs = [10, 30] :=
  ⟨⟨by decide, by decide⟩, by decide,
    (c7_save_then_load_round_trip
      [sampleTodo "a" 10 50 60, sampleTodo "n" 0 50 60, sampleTodo "c" 30 50 60] true
      (some ledgerD) (le32 2 ++ (le32 10 ++ le32 30)) (uninitConst 77)
      ⟨by decide, by decide⟩ (by decide)).1⟩

/-- C8. When `SaveSyncIDLog` succeeds on a calendar whose identifiers fit 32 bits, the
file afterwards is one 4-byte count field holding the number n of todos with non-zero
`pilotId`, followed by exactly n 4-byte fields holding those `pilotId`s in enumeration
order, 4*(n+1) bytes in all; and every successful save of the same calendar leaves the
same file, whatever the file held before. -/
theorem c8_saved_log_layout (cal : Calendar) (canOpen : Bool) (old : Option (List Byte))
    (hfit : Fits32 cal) (hsave : (SaveSyncIDLog cal canOpen old).1 = 0) :
    ∃ file : List Byte,
      (SaveSyncIDLog cal canOpen old).2 = some file ∧
      file.length = 4 * ((cal.filter (fun t => decide (t.pilotId ≠ 0))).length + 1) ∧
      declaredCount file = (cal.filter (fun t => decide (t.pilotId ≠ 0))).length ∧
      storedIDs file
        = (cal.filter (fun t => decide (t.pilotId ≠ 0))).map (fun t => t.pilotId) ∧
      file = le32 (cal.filter (fun t => decide (t.pilotId ≠ 0))).length ++
        ((cal.filter (fun t => decide (t.pilotId ≠ 0))).map (fun t => t.pilotId)).flatMap le32 ∧
      ∀ (canOpen2 : Bool) (old2 : Option (List Byte)),
        (SaveSyncIDLog cal canOpen2 old2).1 = 0 →
          (SaveSyncIDLog cal canOpen2 old2).2 = some file := by
  have hval : ∀ (c : Bool) (o : Option (List Byte)), (SaveSyncIDLog cal c o).1 = 0 →
      (SaveSyncIDLog cal c o).2
        = some (le32 (mappedIDs cal).length ++ (mappedIDs cal).flatMap le32) := by
    intro c o h
    cases c with
    | false => simp [SaveSyncIDLog] at h
    | true => simp [SaveSyncIDLog, writeSyncIDs_eq, countSyncIDs_eq]
  have hids : ∀ id ∈ mappedIDs cal, id < 4294967296 := by
    intro id hmem
    obtain ⟨_, t, ht, rfl⟩ := (mem_mappedIDs cal id).mp hmem
    exact hfit.1 t ht
  have hlen : (mappedIDs cal).length = (cal.filter (fun t => decide (t.pilotId ≠ 0))).length := by
    simp [mappedIDs]
  refine ⟨le32 (mappedIDs cal).length ++ (mappedIDs cal).flatMap le32,
    hval canOpen old hsave, ?_, ?_, ?_, ?_, hval⟩
  · rw [List.length_append, length_le32, length_flatMap_le32, hlen]
    omega
  · rw [declaredCount, List.take_append_of_le_length (by rw [length_le32]),
      List.take_of_length_le (by rw [length_le32]), decode32_le32 _ hfit.2, hlen]
  · rw [storedIDs]
    have hdrop : List.drop 4 (le32 (mappedIDs cal).length ++ (mappedIDs cal).flatMap le32)
        = (mappedIDs cal).flatMap le32 := List.drop_left (le32 (mappedIDs cal).length) _
    rw [hdrop, fields32_flatMap_le32 _ hids, mappedIDs]
  · rw [hlen, mappedIDs]

/-- C8 at a calendar with two mapped todos and one unmapped todo, saved over a file
that held something else. -/
theorem c8_saved_log_layout_witness :
    Fits32 [sampleTodo "a" 10 50 60, sampleTodo "n" 0 50 60, sampleTodo "c" 30 50 60] ∧
      (SaveSyncIDLog [sampleTodo "a" 10 50 60, sampleTodo "n" 0 50 60, sampleTodo "c" 30 50 60]
        true (some ledgerD)).1 = 0 ∧
      (SaveSyncIDLog [sampleTodo "a" 10 50 60, sampleTodo "n" 0 50 60, sampleTodo "c" 30 50 60]
        true (some ledgerD)).2 = some [2, 0, 0, 0, 10, 0, 0, 0, 30, 0, 0, 0] ∧
      ∃ file : List Byte,
        (SaveSyncIDLog [sampleTodo "a" 10 50 60, sampleTodo "n" 0 50 60, sampleTodo "c" 30 50 60]
          true (some ledgerD)).2 = some file ∧ file.length = 12 :=
  ⟨⟨by decide, by decide⟩, by decide, by decide,
    (c8_saved_log_layout
      [sampleTodo "a" 10 50 60, sampleTodo "n" 0 50 60, sampleTodo "c" 30 50 60] true
      (some ledgerD) ⟨by decide, by decide⟩ (by decide)).imp
      (fun _ h => ⟨h.1, h.2.1⟩)⟩

/-- C9, evaluated on the code. When the log file cannot be opened for reading,
`numSyncIDs` is never assigned and the final test compares 0 with what the variable
happens to hold: `GetAllTodoSyncItems` returns the failure status 3 whenever that content
is not 0 (for instance 7), while for a log that holds the count 0 and for an empty log
file it returns 0. The lists are those of an empty ledger: the deleted list is empty,
the new and the modified list are the same as with any log, and the lists are marked as
obtained. -/
theorem c9_missing_log_status_is_uninitialised (cal : Calendar) (u : Uninit)
    (lastTimeSynced : Int) :
    (GetAllTodoSyncItems cal none u lastTimeSynced [] [] []).retval
        = (if u.numSyncIDs = 0 then 0 else 3) ∧
      (GetAllTodoSyncItems cal none (uninitConst 7) lastTimeSynced [] [] []).retval = 3 ∧
      (∀ u2 : Uninit,
        (GetAllTodoSyncItems cal (some (le32 0)) u2 lastTimeSynced [] [] []).retval = 0 ∧
        (GetAllTodoSyncItems cal (some []) u2 lastTimeSynced [] [] []).retval = 0) ∧
      (GetDelTodoItemIDs Plugin.fresh cal none u lastTimeSynced).1 = [] ∧
      (∀ u2 : Uninit,
        (GetDelTodoItemIDs Plugin.fresh cal (some (le32 0)) u2 lastTimeSynced).1 = [] ∧
        (GetDelTodoItemIDs Plugin.fresh cal (some []) u2 lastTimeSynced).1 = []) ∧
      (∀ (log2 : Option (List Byte)) (u2 : Uninit),
        (GetNewTodoItems Plugin.fresh cal none u lastTimeSynced).1
          = (GetNewTodoItems Plugin.fresh cal log2 u2 lastTimeSynced).1 ∧
        (GetModTodoItems Plugin.fresh cal none u lastTimeSynced).1
          = (GetModTodoItems Plugin.fresh cal log2 u2 lastTimeSynced).1) ∧
      (GetNewTodoItems Plugin.fresh cal none u lastTimeSynced).2.obtainedSyncLists = true ∧
      (GetAllTodoSyncItems cal none u lastTimeSynced [] [] []).delItemIdList = [] := by
  refine ⟨?_, ?_, fun u2 => ⟨retval_some _ _ _ _ _ _ _, retval_some _ _ _ _ _ _ _⟩,
    GetDelTodoItemIDs_fresh_none cal u lastTimeSynced, ?_, ?_, ?_, rfl⟩
  · by_cases h : u.numSyncIDs = 0
    · simp [GetAllTodoSyncItems, h]
    · have h2 : ¬ 0 = u.numSyncIDs := fun h3 => h h3.symm
      simp [GetAllTodoSyncItems, h, h2]
  · simp [GetAllTodoSyncItems, uninitConst]
  · intro u2
    constructor
    · rw [GetDelTodoItemIDs_fresh_some]
      simp [readSyncIDLog, IStream.read4, le32, decode32, readSyncIDs]
    · rw [GetDelTodoItemIDs_fresh_some]
      simp [readSyncIDLog, IStream.read4, readSyncIDs]
  · intro log2 u2
    simp only [GetNewTodoItems_fresh, GetModTodoItems_fresh, and_self]
  · simp [GetNewTodoItems, Plugin.fresh, Plugin.sync, GetAllTodoSyncItems]

/-- C10, evaluated on the code. Called on an empty calendar with an item whose AppID is
"x", `MapItemIDs` dereferences the null pointer returned by `pCal->todo` and returns
nothing; and on every calendar and item list it either does that or returns 0, so no
non-zero result is ever returned. -/
theorem c10_unresolved_appid_has_no_error_result :
    MapItemIDs [] [ConvKCalTodo (sampleTodo "x" 42 0 0)] = none ∧
      ∀ (cal : Calendar) (todoItems : List TodoItemType),
        MapItemIDs cal todoItems = none ∨
          ∃ cal2 : Calendar, MapItemIDs cal todoItems = some (0, cal2) := by
  refine ⟨by decide, ?_⟩
  intro cal todoItems
  induction todoItems generalizing cal with
  | nil => exact Or.inr ⟨cal, rfl⟩
  | cons item rest ih =>
    cases h : cal.todo item.appID with
    | none => left; simp [MapItemIDs, h]
    | some i =>
      simp only [MapItemIDs, h]
      exact ih _

/-- C11. For every calendar (of fewer than 2^32 todos) that has a todo with the AppID of
the item and every assigned identifier s != 0 (a 32-bit value), `MapItemIDs` called with
the item returns 0,
the first todo with that UID has `pilotId` s afterwards and is otherwise unchanged, every
other todo is unchanged, and the file written by a following successful `SaveSyncIDLog`
holds s among its identifier fields. -/
theorem c11_map_item_ids_binds_identifier (cal : Calendar) (item : TodoItemType)
    (old : Option (List Byte))
    (hex : ∃ t ∈ cal, t.uid = item.appID) (hs : item.syncID ≠ 0)
    (hs32 : item.syncID < 4294967296) (hlen : cal.length < 4294967296) :
    ∃ (i : Nat) (t : Todo) (cal2 : Calendar) (file : List Byte),
      cal[i]? = some t ∧ t.uid = item.appID ∧
      (∀ j t2, j < i → cal[j]? = some t2 → t2.uid ≠ item.appID) ∧
      MapItemIDs cal [item] = some (0, cal2) ∧
      cal2.length = cal.length ∧
      cal2[i]? = some { t with pilotId := item.syncID } ∧
      (∀ j, j ≠ i → cal2[j]? = cal[j]?) ∧
      SaveSyncIDLog cal2 true old = (0, some file) ∧
      item.syncID ∈ storedIDs file ∧ item.syncID ∈ ledgerIDs file := by
  obtain ⟨i, t, hi, hget, hu, hfirst⟩ := Calendar.todo_of_mem cal item.appID hex
  have hget2 := getElem?_setPilotId_self cal i item.syncID t hget
  have hmem : item.syncID ∈ mappedIDs (setPilotId cal i item.syncID) := by
    rw [mem_mappedIDs]
    exact ⟨hs, _, List.getElem?_mem hget2, rfl⟩
  have hstored : item.syncID ∈ storedIDs
      (le32 (mappedIDs (setPilotId cal i item.syncID)).length ++
        (mappedIDs (setPilotId cal i item.syncID)).flatMap le32) := by
    rw [storedIDs_saved, List.mem_map]
    exact ⟨item.syncID, hmem, Nat.mod_eq_of_lt hs32⟩
  have hcount : (mappedIDs (setPilotId cal i item.syncID)).length < 4294967296 := by
    have h1 := length_mappedIDs_le (setPilotId cal i item.syncID)
    rw [length_setPilotId] at h1
    omega
  refine ⟨i, t, setPilotId cal i item.syncID, _, hget, hu, hfirst, ?_,
    length_setPilotId cal i item.syncID, hget2,
    fun j hj => getElem?_setPilotId_ne cal i j item.syncID hj,
    SaveSyncIDLog_true _ old, hstored, ?_⟩
  · simp [MapItemIDs, hi]
  · rw [ledgerIDs, declaredCount_saved, Nat.mod_eq_of_lt hcount]
    have hl : (storedIDs (le32 (mappedIDs (setPilotId cal i item.syncID)).length ++
        (mappedIDs (setPilotId cal i item.syncID)).flatMap le32)).length
        = (mappedIDs (setPilotId cal i item.syncID)).length := by
      rw [storedIDs_saved, List.length_map]
    rw [List.take_of_length_le (le_of_eq hl)]
    exact hstored

/-- C11, scenario E: the identifier 42 is bound to the todo with UID "x", and the file
saved afterwards holds the identifiers 10 and 42. -/
theorem c11_map_item_ids_binds_identifier_witness :
    (∃ t ∈ calendarE, t.uid = itemE.appID) ∧ itemE.syncID = 42 ∧
      MapItemIDs calendarE [itemE]
        = some (0, [sampleTodo "a" 10 50 60, sampleTodo "x" 42 70 70]) ∧
      SaveSyncIDLog [sampleTodo "a" 10 50 60, sampleTodo "x" 42 70 70] true none
        = (0, some [2, 0, 0, 0, 10, 0, 0, 0, 42, 0, 0, 0]) ∧
      ∃ (i : Nat) (t : Todo) (cal2 : Calendar) (file : List Byte),
        calendarE[i]? = some t ∧ t.uid = itemE.appID ∧
        (∀ j t2, j < i → calendarE[j]? = some t2 → t2.uid ≠ itemE.appID) ∧
        MapItemIDs calendarE [itemE] = some (0, cal2) ∧
        cal2.length = calendarE.length ∧
        cal2[i]? = some { t with pilotId := itemE.syncID } ∧
        (∀ j, j ≠ i → cal2[j]? = calendarE[j]?) ∧
        SaveSyncIDLog cal2 true none = (0, some file) ∧
        itemE.syncID ∈ storedIDs file ∧ itemE.syncID ∈ ledgerIDs file :=
  ⟨by decide, by decide, by decide, by decide,
    c11_map_item_ids_binds_identifier calendarE itemE none (by decide) (by decide)
      (by decide) (by decide)⟩

/-- C12. `AddTodoItems` goes through the items in list order and adds a prefix of them:
there is a position n such that the calendar afterwards is the old calendar followed by
the todos created for the first n items, every one of those was accepted by the store,
and either n is the number of items and the result is 0, or the store rejected the item at
position n, the result is 2 and no later item was added. The result is 0 if and only if
the todos of all items were added. -/
theorem c12_add_todo_items_stops_at_first_rejection (addTodo : Calendar → Todo → Bool)
    (newUid : Nat → String) (cal : Calendar) (todoItems : List TodoItemType) :
    (∃ n, n ≤ todoItems.length ∧
      (AddTodoItems addTodo newUid cal todoItems).2
        = cal ++ convTodosFrom newUid 0 (todoItems.take n) ∧
      (∀ j item, j < n → todoItems[j]? = some item →
        addTodo (cal ++ convTodosFrom newUid 0 (todoItems.take j))
          (ConvTodoItemType (newUid j) item) = true) ∧
      ((n = todoItems.length ∧ (AddTodoItems addTodo newUid cal todoItems).1 = 0) ∨
        (∃ item, todoItems[n]? = some item ∧
          addTodo (cal ++ convTodosFrom newUid 0 (todoItems.take n))
            (ConvTodoItemType (newUid n) item) = false ∧
          (AddTodoItems addTodo newUid cal todoItems).1 = 2))) ∧
      ((AddTodoItems addTodo newUid cal todoItems).1 = 0 ↔
        (AddTodoItems addTodo newUid cal todoItems).2
          = cal ++ convTodosFrom newUid 0 todoItems) := by
  obtain ⟨n, hn, hcal, hacc, hend⟩ := addTodoItemsFrom_spec addTodo newUid todoItems 0 cal
  have hacc2 : ∀ j item, j < n → todoItems[j]? = some item →
      addTodo (cal ++ convTodosFrom newUid 0 (todoItems.take j))
        (ConvTodoItemType (newUid j) item) = true := by
    intro j item hj hget
    have h := hacc j item hj hget
    rwa [Nat.zero_add] at h
  have hend2 : (n = todoItems.length ∧ (AddTodoItems addTodo newUid cal todoItems).1 = 0) ∨
      (∃ item, todoItems[n]? = some item ∧
        addTodo (cal ++ convTodosFrom newUid 0 (todoItems.take n))
          (ConvTodoItemType (newUid n) item) = false ∧
        (AddTodoItems addTodo newUid cal todoItems).1 = 2) := by
    rcases hend with h | ⟨item, hget, hrej, hret⟩
    · exact Or.inl h
    · rw [Nat.zero_add] at hrej
      exact Or.inr ⟨item, hget, hrej, hret⟩
  refine ⟨⟨n, hn, hcal, hacc2, hend2⟩, ?_⟩
  have hcal2 : (AddTodoItems addTodo newUid cal todoItems).2
      = cal ++ convTodosFrom newUid 0 (todoItems.take n) := hcal
  rcases hend2 with ⟨hlen, hret⟩ | ⟨item, hget, _, hret⟩
  · constructor
    · intro _
      rw [hcal2, hlen, List.take_length]
    · intro _
      exact hret
  · have hlt : n < todoItems.length := by
      by_contra hge
      rw [List.getElem?_eq_none (by omega)] at hget
      exact Option.noConfusion hget
    constructor
    · intro h0
      rw [hret] at h0
      exact absurd h0 (by decide)
    · intro heq
      have hl := congrArg List.length heq
      rw [hcal2, List.length_append, List.length_append, length_convTodosFrom,
        length_convTodosFrom, List.length_take] at hl
      omega

/-- C13. For every calendar and every list of identifiers, `DelTodoItems` returns 0 and
the calendar afterwards consists of exactly the todos whose `pilotId` is not in the
list, unchanged and in their old order; identifiers that are the `pilotId` of no todo
change nothing. -/
theorem c13_del_todo_items_removes_listed (cal : Calendar) (todoItemIDs : SyncIDListType) :
    DelTodoItems cal todoItemIDs
        = (0, cal.filter (fun t => decide (t.pilotId ∉ todoItemIDs))) ∧
      (∀ t, t ∈ (DelTodoItems cal todoItemIDs).2 ↔ t ∈ cal ∧ t.pilotId ∉ todoItemIDs) ∧
      ∀ unmatched : SyncIDListType, (∀ id ∈ unmatched, ∀ t ∈ cal, t.pilotId ≠ id) →
        DelTodoItems cal (todoItemIDs ++ unmatched) = DelTodoItems cal todoItemIDs := by
  have main : ∀ ids : SyncIDListType,
      DelTodoItems cal ids = (0, cal.filter (fun t => decide (t.pilotId ∉ ids))) := by
    intro ids
    unfold DelTodoItems
    by_cases h : ids ≠ [] ∧ withAddress 0 cal ≠ []
    · have hm := List.filter_map (p := fun t => decide (t.pilotId ∉ ids))
        (fun e : Nat × Todo => e.2) (withAddress 0 cal)
      rw [map_snd_withAddress] at hm
      rw [if_pos h, foldl_delTodoItem cal ids _ (fun e he => he), hm]
      rfl
    · rw [if_neg h]
      simp only [Prod.mk.injEq, true_and]
      by_cases h1 : ids = []
      · simp [h1]
      · have h2 : withAddress 0 cal = [] := by
          by_contra h3
          exact h ⟨h1, h3⟩
        have h3 : cal = [] := by
          rw [← map_snd_withAddress cal 0, h2]
          rfl
        simp [h3]
  refine ⟨main todoItemIDs, ?_, ?_⟩
  · intro t
    rw [main]
    simp [List.mem_filter]
  · intro unmatched hun
    rw [main, main]
    congr 1
    apply List.filter_congr
    intro t ht
    have : t.pilotId ∉ unmatched := fun hmem => hun _ hmem t ht rfl
    simp [this]

/-- C15. `SaveSyncIDLog` returns 1 exactly when the log file cannot be opened for
output, and then the file is left as it was; otherwise it returns 0. -/
theorem c15_save_sync_id_log_status (cal : Calendar) (canOpen : Bool)
    (old : Option (List Byte)) :
    ((SaveSyncIDLog cal canOpen old).1 = 1 ↔ canOpen = false) ∧
      ((SaveSyncIDLog cal canOpen old).1 = 0 ↔ canOpen = true) ∧
      (canOpen = false → (SaveSyncIDLog cal canOpen old).2 = old) := by
  cases canOpen <;> simp [SaveSyncIDLog]

/-- C16, the claim as stated fails: when the log file cannot be opened and saving the
opened calendar fails as well, `CleanUp` returns 2, not 1. -/
theorem c16_clean_up_both_fail_returns_2 :
    (SaveSyncIDLog calendarA false none).1 ≠ 0 ∧
      (CleanUp calendarA false none true false).1 = 2 ∧
      (CleanUp calendarA false none true false).1 ≠ 1 := by
  decide

/-- C16, amended. `CleanUp` always calls `SaveSyncIDLog` (the log file afterwards is the
one that call leaves). It returns 0 exactly when the log was saved and the calendar
save, attempted when the calendar was opened, did not fail; it returns 2 exactly when
the calendar save was attempted and failed, also when saving the log failed too; and it
returns 1 exactly when saving the log failed and the calendar save did not fail. -/
theorem c16_clean_up_result_code (cal : Calendar) (canOpen : Bool)
    (old : Option (List Byte)) (openedCalFlag saveOk : Bool) :
    (CleanUp cal canOpen old openedCalFlag saveOk).2 = (SaveSyncIDLog cal canOpen old).2 ∧
      ((CleanUp cal canOpen old openedCalFlag saveOk).1 = 0 ↔
        (SaveSyncIDLog cal canOpen old).1 = 0 ∧ (openedCalFlag = true → saveOk = true)) ∧
      ((CleanUp cal canOpen old openedCalFlag saveOk).1 = 2 ↔
        openedCalFlag = true ∧ saveOk = false) ∧
      ((CleanUp cal canOpen old openedCalFlag saveOk).1 = 1 ↔
        (SaveSyncIDLog cal canOpen old).1 ≠ 0 ∧ ¬ (openedCalFlag = true ∧ saveOk = false)) := by
  cases canOpen <;> cases openedCalFlag <;> cases saveOk <;> simp [CleanUp, SaveSyncIDLog]

/-- C17. `GetAllTodoItems` returns the converted todos of the calendar, one per todo (in
reverse enumeration order, since each is pushed onto the front), each carrying the UID,
`pilotId`, creation and modification time of its todo; it takes no cutoff and no ledger
and does not depend on the members of the plugin, so not on whether the delta lists
have been obtained. -/
theorem c17_get_all_todo_items (p : Plugin) (cal : Calendar) :
    GetAllTodoItems p cal = (cal.map ConvKCalTodo).reverse ∧
      (GetAllTodoItems p cal).length = cal.length ∧
      (GetAllTodoItems p cal).Perm (cal.map ConvKCalTodo) ∧
      (∀ t : Todo, (ConvKCalTodo t).appID = t.uid ∧ (ConvKCalTodo t).syncID = t.pilotId ∧
        (ConvKCalTodo t).createdTime = t.created ∧
        (ConvKCalTodo t).modifiedTime = t.lastModified) ∧
      ∀ p2 : Plugin, GetAllTodoItems p2 cal = GetAllTodoItems p cal := by
  have key : ∀ (l : Calendar) (acc : List TodoItemType),
      l.foldl (fun todoItemList pKcalTodo => ConvKCalTodo pKcalTodo :: todoItemList) acc
        = (l.map ConvKCalTodo).reverse ++ acc := by
    intro l
    induction l with
    | nil => intro acc; rfl
    | cons t l ih =>
      intro acc
      rw [List.foldl_cons, ih]
      simp
  have hres : GetAllTodoItems p cal = (cal.map ConvKCalTodo).reverse := by
    unfold GetAllTodoItems
    rw [key]
    simp
  refine ⟨hres, ?_, ?_, ?_, fun _ => rfl⟩
  · rw [hres]
    simp
  · rw [hres]
    exact List.reverse_perm _
  · intro t
    exact ⟨rfl, rfl, rfl, rfl⟩

/-- C18. Memoization. Whichever of the three queries is called first on a fresh plugin,
with calendar `cal`, log `log` and cutoff `t1`, it leaves the plugin with the lists
computed by that call and with `obtainedSyncLists` set. In that state every call of any
of the three queries, with any cutoff `t2`, calendar and log, returns the stored list
computed for `t1` and leaves the plugin as it is, so the same holds for all later calls. -/
theorem c18_first_call_wins (cal : Calendar) (log : Option (List Byte)) (u : Uninit)
    (t1 : Int) (cal2 : Calendar) (log2 : Option (List Byte)) (u2 : Uninit) (t2 : Int) :
    ((GetNewTodoItems Plugin.fresh cal log u t1).2 = Plugin.fresh.sync cal log u t1 ∧
      (GetModTodoItems Plugin.fresh cal log u t1).2 = Plugin.fresh.sync cal log u t1 ∧
      (GetDelTodoItemIDs Plugin.fresh cal log u t1).2 = Plugin.fresh.sync cal log u t1) ∧
      (Plugin.fresh.sync cal log u t1).obtainedSyncLists = true ∧
      GetNewTodoItems (Plugin.fresh.sync cal log u t1) cal2 log2 u2 t2
        = ((GetAllTodoSyncItems cal log u t1 [] [] []).newItemList,
            Plugin.fresh.sync cal log u t1) ∧
      GetModTodoItems (Plugin.fresh.sync cal log u t1) cal2 log2 u2 t2
        = ((GetAllTodoSyncItems cal log u t1 [] [] []).modItemList,
            Plugin.fresh.sync cal log u t1) ∧
      GetDelTodoItemIDs (Plugin.fresh.sync cal log u t1) cal2 log2 u2 t2
        = ((GetAllTodoSyncItems cal log u t1 [] [] []).delItemIdList,
            Plugin.fresh.sync cal log u t1) := by
  have hflag : (Plugin.fresh.sync cal log u t1).obtainedSyncLists = true := by
    cases log <;> rfl
  refine ⟨⟨rfl, rfl, rfl⟩, hflag, ?_, ?_, ?_⟩
  · simp only [GetNewTodoItems, hflag, if_true]
    rfl
  · simp only [GetModTodoItems, hflag, if_true]
    rfl
  · simp only [GetDelTodoItemIDs, hflag, if_true]
    rfl

/-- C19. For every state of the plugin, calendar, log file and cutoff, a query called a
second time returns the list the first call returned and leaves the stored lists as the
first call left them: nothing is appended a second time. -/
theorem c19_repeated_query_returns_same_list (p : Plugin) (cal : Calendar)
    (log : Option (List Byte)) (u u2 : Uninit) (t : Int) :
    (GetNewTodoItems (GetNewTodoItems p cal log u t).2 cal log u2 t
        = GetNewTodoItems p cal log u t) ∧
      (GetModTodoItems (GetModTodoItems p cal log u t).2 cal log u2 t
        = GetModTodoItems p cal log u t) ∧
      (GetDelTodoItemIDs (GetDelTodoItemIDs p cal log u t).2 cal log u2 t
        = GetDelTodoItemIDs p cal log u t) := by
  have hflag : (p.sync cal log u t).obtainedSyncLists = true := by
    cases log <;> rfl
  refine ⟨?_, ?_, ?_⟩
  · by_cases h : p.obtainedSyncLists = true
    · simp [GetNewTodoItems, h]
    · simp [GetNewTodoItems, h, hflag]
  · by_cases h : p.obtainedSyncLists = true
    · simp [GetModTodoItems, h]
    · simp [GetModTodoItems, h, hflag]
  · by_cases h : p.obtainedSyncLists = true
    · simp [GetDelTodoItemIDs, h]
    · simp [GetDelTodoItemIDs, h, hflag]

/-- C20. When the log file can be opened and holds fewer than 4 bytes, the count is
taken as 0, no identifier is loaded, the deleted list stays as it was (empty on the first
delta computation) and `GetAllTodoSyncItems` returns 0. -/
theorem c20_short_log_is_empty_ledger (cal : Calendar) (file : List Byte) (u : Uninit)
    (lastTimeSynced : Int) (n m : List TodoItemType) (d : SyncIDListType)
    (hshort : file.length < 4) :
    (readSyncIDLog file u).numSyncIDs = 0 ∧
      (readSyncIDLog file u).pSyncIDs = [] ∧
      (GetAllTodoSyncItems cal (some file) u lastTimeSynced n m d).delItemIdList = d ∧
      (GetAllTodoSyncItems cal (some file) u lastTimeSynced n m d).retval = 0 ∧
      (GetDelTodoItemIDs Plugin.fresh cal (some file) u lastTimeSynced).1 = [] := by
  have hgood : (IStream.read4 { rest := file, good := true } u.numSyncIDs).2.good = false := by
    have h4 : ¬ 4 ≤ file.length := by omega
    simp [IStream.read4, h4]
  have hnum : (readSyncIDLog file u).numSyncIDs = 0 := by
    simp [readSyncIDLog, hgood]
  have hids : (readSyncIDLog file u).pSyncIDs = [] := by
    simp [readSyncIDLog, hgood, readSyncIDs]
  refine ⟨hnum, hids, ?_, retval_some _ _ _ _ _ _ _, ?_⟩
  · rw [delItemIdList_some, hids]
    rfl
  · rw [GetDelTodoItemIDs_fresh_some, hids]
    rfl

/-- C20 at a log file of two bytes and at the empty log file. -/
theorem c20_short_log_is_empty_ledger_witness :
    ([5, 0] : List Byte).length < 4 ∧
      (readSyncIDLog [5, 0] (uninitConst 77)).numSyncIDs = 0 ∧
      (GetAllTodoSyncItems calendarA (some [5, 0]) (uninitConst 77) 1000 [] [] []).retval = 0 ∧
      (GetDelTodoItemIDs Plugin.fresh calendarA (some [5, 0]) (uninitConst 77) 1000).1 = [] ∧
      (GetDelTodoItemIDs Plugin.fresh calendarA (some []) (uninitConst 77) 1000).1 = [] :=
  ⟨by decide,
    (c20_short_log_is_empty_ledger calendarA [5, 0] (uninitConst 77) 1000 [] [] []
      (by decide)).1,
    (c20_short_log_is_empty_ledger calendarA [5, 0] (uninitConst 77) 1000 [] [] []
      (by decide)).2.2.2.1,
    (c20_short_log_is_empty_ledger calendarA [5, 0] (uninitConst 77) 1000 [] [] []
      (by decide)).2.2.2.2,
    (c20_short_log_is_empty_ledger calendarA [] (uninitConst 77) 1000 [] [] []
      (by decide)).2.2.2.2⟩

/-- C21. Steady state: when `SaveSyncIDLog` succeeds on a calendar whose identifiers fit
32 bits and a fresh plugin then computes the delta for the same calendar from the file
that was written, the deleted list is empty for every cutoff, and `GetAllTodoSyncItems`
returns 0. -/
theorem c21_saved_calendar_reports_no_deletion (cal : Calendar) (canOpen : Bool)
    (old : Option (List Byte)) (file : List Byte) (u : Uninit) (lastTimeSynced : Int)
    (hfit : Fits32 cal) (hsave : SaveSyncIDLog cal canOpen old = (0, some file)) :
    (GetDelTodoItemIDs Plugin.fresh cal (some file) u lastTimeSynced).1 = [] ∧
      (GetAllTodoSyncItems cal (some file) u lastTimeSynced [] [] []).delItemIdList = [] ∧
      (GetAllTodoSyncItems cal (some file) u lastTimeSynced [] [] []).retval = 0 := by
  have hfile : file = le32 (mappedIDs cal).length ++ (mappedIDs cal).flatMap le32 := by
    cases canOpen with
    | false => simp [SaveSyncIDLog] at hsave
    | true =>
      rw [SaveSyncIDLog_true] at hsave
      simp only [Prod.mk.injEq, Option.some.injEq, true_and] at hsave
      exact hsave.symm
  subst hfile
  refine ⟨?_, ?_, retval_some _ _ _ _ _ _ _⟩
  · rw [GetDelTodoItemIDs_fresh_some, readSyncIDLog_saved cal u hfit, foldl_delStep_mappedIDs]
  · rw [delItemIdList_some, readSyncIDLog_saved cal u hfit, foldl_delStep_mappedIDs]

/-- C21 at a calendar with todos mapped to 10 and 30 and an unmapped todo, saved over a
truncated log file, with the cutoff 0. -/
theorem c21_saved_calendar_reports_no_deletion_witness :
    Fits32 [sampleTodo "a" 10 50 60, sampleTodo "n" 0 50 60, sampleTodo "c" 30 50 60] ∧
      SaveSyncIDLog [sampleTodo "a" 10 50 60, sampleTodo "n" 0 50 60, sampleTodo "c" 30 50 60]
          true (some ledgerD) = (0, some [2, 0, 0, 0, 10, 0, 0, 0, 30, 0, 0, 0]) ∧
      (GetDelTodoItemIDs Plugin.fresh
          [sampleTodo "a" 10 50 60, sampleTodo "n" 0 50 60, sampleTodo "c" 30 50 60]
          (some [2, 0, 0, 0, 10, 0, 0, 0, 30, 0, 0, 0]) (uninitConst 77) 0).1 = [] :=
  ⟨⟨by decide, by decide⟩, by decide,
    (c21_saved_calendar_reports_no_deletion
      [sampleTodo "a" 10 50 60, sampleTodo "n" 0 50 60, sampleTodo "c" 30 50 60] true
      (some ledgerD) [2, 0, 0, 0, 10, 0, 0, 0, 30, 0, 0, 0] (uninitConst 77) 0
      ⟨by decide, by decide⟩ (by decide)).1⟩

/-- C22. `ModTodoItems` compares the `pilotId` of every todo with the sync ID of the item
and nothing else: called with one item whose sync ID is 0, it returns 0 and passes every
todo with `pilotId` 0 to `UpdateKCalTodoItem` with that item, leaving the other todos as
they are. -/
theorem c22_item_with_sync_id_zero_overwrites_all_unmapped (cal : Calendar)
    (item : TodoItemType) (hzero : item.syncID = 0) :
    ModTodoItems cal [item]
        = (0, cal.map (fun t => if t.pilotId = 0 then UpdateKCalTodoItem t item else t)) ∧
      (∀ (i : Nat) (t : Todo), cal[i]? = some t → t.pilotId = 0 →
        (ModTodoItems cal [item]).2[i]? = some (UpdateKCalTodoItem t item)) ∧
      (∀ (i : Nat) (t : Todo), cal[i]? = some t → t.pilotId ≠ 0 →
        (ModTodoItems cal [item]).2[i]? = some t) := by
  have hres : ModTodoItems cal [item]
      = (0, cal.map (fun t => if t.pilotId = 0 then UpdateKCalTodoItem t item else t)) := by
    simp only [ModTodoItems, List.foldl_cons, List.foldl_nil, modTodoItem, hzero]
  refine ⟨hres, ?_, ?_⟩
  · intro i t hget hid
    rw [hres]
    simp [List.getElem?_map, hget, hid]
  · intro i t hget hid
    rw [hres]
    simp [List.getElem?_map, hget, hid]

/-- C22 at a calendar with two unmapped todos and one mapped to 7: both unmapped todos
take the creation and modification time of the item and keep their UID, the mapped todo
is unchanged. -/
theorem c22_item_with_sync_id_zero_overwrites_all_unmapped_witness :
    itemZ.syncID = 0 ∧
      ModTodoItems calendarU [itemZ]
        = (0, [sampleTodo "u1" 0 500 600, sampleTodo "m" 7 10 20, sampleTodo "u2" 0 500 600]) ∧
      ModTodoItems calendarU [itemZ]
        = (0, calendarU.map
            (fun t => if t.pilotId = 0 then UpdateKCalTodoItem t itemZ else t)) :=
  ⟨by decide, by decide,
    (c22_item_with_sync_id_zero_overwrites_all_unmapped calendarU itemZ (by decide)).1⟩

end KOrgTodoPlugin
